import Mathlib

/-!
Verification of the mini-AGI backend orchestration core against its
specification.  The Python sources (backend/orchestrator/{agents,core,
memory,tools}.py) are shallowly embedded below: pure logic is translated
to executable Lean functions, the SQLite-backed memory store becomes an
explicit state record, and the external collaborators (LLM transport,
filesystem, HTTP) become oracle parameters.  Machine-level effects that
Python expresses dynamically (truthiness, dict semantics, exceptions)
are modelled explicitly.
-/

/-- Opening curly brace character, written via its code point. -/
def lbrace : Char := Char.ofNat 123

/-- Closing curly brace character, written via its code point. -/
def rbrace : Char := Char.ofNat 125

/-- Opening brace as a one-character string. -/
def lbraceS : String := String.singleton lbrace

/-- Closing brace as a one-character string. -/
def rbraceS : String := String.singleton rbrace

/-- A Python value as it arises from `json.loads`: one of the six JSON
shapes.  Numbers keep their source lexeme (the code never does arithmetic
on them, it only passes them around, tests truthiness and re-serializes). -/
inductive Json where
  | null
  | bool (b : Bool)
  | num (lexeme : String)
  | str (s : String)
  | arr (elems : List Json)
  | obj (fields : List (String × Json))

/-- A Python dict with string keys (as built by `json.loads` and used for
the decoded action record): an association list in insertion order with
unique keys. -/
abbrev PyDict := List (String × Json)

/-- The Python exceptions the embedded code can raise. -/
inductive PyErr where
  | attributeError
  | typeError
  | validationError
  | integrityError
deriving Repr, DecidableEq

/-- `d[k]` lookup returning `none` when the key is absent. -/
def dictGet? (d : PyDict) (k : String) : Option Json :=
  match d.find? (fun p => p.1 == k) with
  | some p => some p.2
  | none => none

/-- `d.get(k, v)`: lookup with a default. -/
def dictGetD (d : PyDict) (k : String) (v : Json) : Json :=
  (dictGet? d k).getD v

/-- `d[k] = v` on a dict: overwrite in place if the key exists (keeping
its position, as CPython dicts do), else append. -/
def dictInsert (d : PyDict) (k : String) (v : Json) : PyDict :=
  if d.any (fun p => p.1 == k) then d.map (fun p => if p.1 == k then (p.1, v) else p)
  else d ++ [(k, v)]

/-- `d.setdefault(k, v)`: insert `v` only when the key is absent. -/
def pySetdefault (d : PyDict) (k : String) (v : Json) : PyDict :=
  match dictGet? d k with
  | some _ => d
  | none => d ++ [(k, v)]

/-- Truthiness of a JSON number lexeme: zero-valued mantissas (`0`,
`-0.00`, `0e5`) are falsy; `NaN` and `Infinity` (digit-free lexemes) are
truthy.  (Float underflow such as `1e-400` evaluating to `0.0` is not
modelled.) -/
def pyNumTruthy (s : String) : Bool :=
  let mant := s.toList.takeWhile (fun c => c ≠ 'e' ∧ c ≠ 'E')
  mant.any (fun c => c.isDigit ∧ c ≠ '0') ∨ mant.all (fun c => ¬ c.isDigit)

/-- Python truthiness of a value coming from JSON: `None`, `False`, zero,
`""`, `[]` and `{}` are falsy. -/
def pyTruthy : Json → Bool
  | Json.null => false
  | Json.bool b => b
  | Json.num s => pyNumTruthy s
  | Json.str s => !s.isEmpty
  | Json.arr xs => !xs.isEmpty
  | Json.obj kvs => !kvs.isEmpty

/-- Python `a or b` on values. -/
def pyOr (a b : Json) : Json := if pyTruthy a then a else b

/-! ### JSON parsing (the embedding of `json.loads`)

A strict recursive-descent parser over the character list, following the
JSON grammar that the CPython `json` module accepts (including the
non-standard `NaN`/`Infinity`/`-Infinity` constants it allows by
default).  The `fuel` argument is an upper bound on recursion depth; the
entry point supplies more fuel than any input of the given length can
consume, so it never runs out on the actual calls. -/

/-- Skip JSON whitespace (space, tab, newline, carriage return). -/
def skipWs : List Char → List Char
  | [] => []
  | c :: cs => if c = ' ' ∨ c = '\t' ∨ c = '\n' ∨ c = '\r' then skipWs cs else c :: cs

/-- Value of one hexadecimal digit. -/
def hexVal (c : Char) : Option Nat :=
  if c.isDigit then some (c.toNat - 48)
  else if 'a' ≤ c ∧ c ≤ 'f' then some (c.toNat - 87)
  else if 'A' ≤ c ∧ c ≤ 'F' then some (c.toNat - 55)
  else none

/-- Four hexadecimal digits, as in a `\uXXXX` escape. -/
def hex4 : List Char → Option (Nat × List Char)
  | a :: b :: c :: d :: rest =>
    match hexVal a, hexVal b, hexVal c, hexVal d with
    | some x, some y, some z, some w => some (((x * 16 + y) * 16 + z) * 16 + w, rest)
    | _, _, _, _ => none
  | _ => none

/-- Integer part of a JSON number: `0`, or a nonzero digit followed by
digits (leading zeros are rejected, as in the JSON grammar). -/
def parseIntPart : List Char → Option (List Char × List Char)
  | '0' :: cs => some (['0'], cs)
  | c :: cs =>
    if c.isDigit then
      match cs.span Char.isDigit with
      | (ds, rest) => some (c :: ds, rest)
    else none
  | [] => none

/-- Optional fraction part.  As in the CPython number regex, a dot not
followed by a digit is left unconsumed. -/
def parseFracPart (cs : List Char) : List Char × List Char :=
  match cs with
  | '.' :: cs1 =>
    match cs1.span Char.isDigit with
    | ([], _) => ([], cs)
    | (ds, rest) => ('.' :: ds, rest)
  | _ => ([], cs)

/-- Optional exponent part, likewise left unconsumed when incomplete. -/
def parseExpPart (cs : List Char) : List Char × List Char :=
  match cs with
  | c :: cs1 =>
    if c = 'e' ∨ c = 'E' then
      match cs1 with
      | s :: cs2 =>
        if s = '+' ∨ s = '-' then
          match cs2.span Char.isDigit with
          | ([], _) => ([], cs)
          | (ds, rest) => (c :: s :: ds, rest)
        else
          match cs1.span Char.isDigit with
          | ([], _) => ([], cs)
          | (ds, rest) => (c :: ds, rest)
      | [] => ([], cs)
    else ([], cs)
  | [] => ([], cs)

/-- A JSON number lexeme: optional sign, integer part, optional fraction
and exponent. -/
def parseNum (cs : List Char) : Option (String × List Char) :=
  let signed := match cs with
    | '-' :: r => (['-'], r)
    | _ => (([] : List Char), cs)
  match parseIntPart signed.2 with
  | none => none
  | some (ip, cs2) =>
    match parseFracPart cs2 with
    | (fp, cs3) =>
      match parseExpPart cs3 with
      | (ep, cs4) => some (String.mk (signed.1 ++ ip ++ fp ++ ep), cs4)

/-- Body of a JSON string after the opening quote, accumulating decoded
characters in reverse.  Escapes follow the JSON grammar; `\uXXXX`
surrogate pairs are combined.  (A lone surrogate, which Python would keep
as-is, is not representable as a Lean `Char` and maps to `Char.ofNat`'s
fallback.)  Control characters below 0x20 are rejected, as in strict
`json.loads`. -/
def parseStrBody : Nat → List Char → List Char → Option (String × List Char)
  | 0, _, _ => none
  | fuel + 1, acc, cs =>
    match cs with
    | [] => none
    | '"' :: rest => some (String.mk acc.reverse, rest)
    | '\\' :: esc :: rest =>
      match esc with
      | '"' => parseStrBody fuel ('"' :: acc) rest
      | '\\' => parseStrBody fuel ('\\' :: acc) rest
      | '/' => parseStrBody fuel ('/' :: acc) rest
      | 'b' => parseStrBody fuel (Char.ofNat 8 :: acc) rest
      | 'f' => parseStrBody fuel (Char.ofNat 12 :: acc) rest
      | 'n' => parseStrBody fuel ('\n' :: acc) rest
      | 'r' => parseStrBody fuel ('\r' :: acc) rest
      | 't' => parseStrBody fuel ('\t' :: acc) rest
      | 'u' =>
        match hex4 rest with
        | none => none
        | some (n, rest2) =>
          if 0xD800 ≤ n ∧ n ≤ 0xDBFF then
            match rest2 with
            | '\\' :: 'u' :: rest3 =>
              match hex4 rest3 with
              | some (m, rest4) =>
                if 0xDC00 ≤ m ∧ m ≤ 0xDFFF then
                  parseStrBody fuel
                    (Char.ofNat (0x10000 + (n - 0xD800) * 0x400 + (m - 0xDC00)) :: acc) rest4
                else parseStrBody fuel (Char.ofNat n :: acc) rest2
              | none => parseStrBody fuel (Char.ofNat n :: acc) rest2
            | _ => parseStrBody fuel (Char.ofNat n :: acc) rest2
          else parseStrBody fuel (Char.ofNat n :: acc) rest2
      | _ => none
    | c :: rest =>
      if c.toNat < 32 then none else parseStrBody fuel (c :: acc) rest

mutual

/-- Parse one JSON value after optional leading whitespace. -/
def parseVal : Nat → List Char → Option (Json × List Char)
  | 0, _ => none
  | fuel + 1, cs =>
    match skipWs cs with
    | 'n' :: 'u' :: 'l' :: 'l' :: rest => some (Json.null, rest)
    | 't' :: 'r' :: 'u' :: 'e' :: rest => some (Json.bool true, rest)
    | 'f' :: 'a' :: 'l' :: 's' :: 'e' :: rest => some (Json.bool false, rest)
    | 'N' :: 'a' :: 'N' :: rest => some (Json.num "NaN", rest)
    | 'I' :: 'n' :: 'f' :: 'i' :: 'n' :: 'i' :: 't' :: 'y' :: rest =>
      some (Json.num "Infinity", rest)
    | '-' :: 'I' :: 'n' :: 'f' :: 'i' :: 'n' :: 'i' :: 't' :: 'y' :: rest =>
      some (Json.num "-Infinity", rest)
    | '"' :: rest =>
      match parseStrBody fuel [] rest with
      | some (s, rest2) => some (Json.str s, rest2)
      | none => none
    | '[' :: rest => parseArrBody fuel rest
    | c :: rest =>
      if c = lbrace then parseObjBody fuel rest
      else if c = '-' ∨ c.isDigit then
        match parseNum (c :: rest) with
        | some (lex, rest2) => some (Json.num lex, rest2)
        | none => none
      else none
    | [] => none

/-- Parse an array body after the opening bracket. -/
def parseArrBody : Nat → List Char → Option (Json × List Char)
  | 0, _ => none
  | fuel + 1, cs =>
    match skipWs cs with
    | ']' :: rest => some (Json.arr [], rest)
    | cs1 => parseArrItems fuel cs1 []

/-- Parse the comma-separated items of a non-empty array. -/
def parseArrItems : Nat → List Char → List Json → Option (Json × List Char)
  | 0, _, _ => none
  | fuel + 1, cs, acc =>
    match parseVal fuel cs with
    | none => none
    | some (v, rest) =>
      match skipWs rest with
      | ',' :: rest2 => parseArrItems fuel rest2 (v :: acc)
      | ']' :: rest2 => some (Json.arr (v :: acc).reverse, rest2)
      | _ => none

/-- Parse an object body after the opening brace. -/
def parseObjBody : Nat → List Char → Option (Json × List Char)
  | 0, _ => none
  | fuel + 1, cs =>
    match skipWs cs with
    | c :: rest =>
      if c = rbrace then some (Json.obj [], rest)
      else parseObjItems fuel (c :: rest) []
    | [] => none

/-- Parse the members of a non-empty object; duplicate keys overwrite in
place, as `dict(pairs)` does. -/
def parseObjItems : Nat → List Char → List (String × Json) → Option (Json × List Char)
  | 0, _, _ => none
  | fuel + 1, cs, acc =>
    match skipWs cs with
    | '"' :: rest =>
      match parseStrBody fuel [] rest with
      | none => none
      | some (k, rest2) =>
        match skipWs rest2 with
        | ':' :: rest3 =>
          match parseVal fuel rest3 with
          | none => none
          | some (v, rest4) =>
            match skipWs rest4 with
            | ',' :: rest5 => parseObjItems fuel rest5 (dictInsert acc k v)
            | c :: rest5 =>
              if c = rbrace then some (Json.obj (dictInsert acc k v), rest5) else none
            | [] => none
        | _ => none
    | _ => none

end

/-- `json.loads`: parse one value and require only whitespace to remain.
The fuel bound exceeds the recursion depth reachable on an input of this
length. -/
def jsonLoads (s : String) : Option Json :=
  match parseVal (4 * s.length + 16) s.toList with
  | some (v, rest) => if skipWs rest = [] then some v else none
  | none => none

/-! ### Python rendering helpers

`str()` and `repr()` of values that originate from JSON, and
`json.dumps` — used where the source interpolates values into f-strings
or serializes the decoded record into the context log. -/

mutual

/-- Executable structural size of a value, used as recursion fuel for
the renderers below. -/
def jsize : Json → Nat
  | Json.null => 1
  | Json.bool _ => 1
  | Json.num _ => 1
  | Json.str _ => 1
  | Json.arr xs => jsizeL xs + 1
  | Json.obj kvs => jsizeP kvs + 1

/-- Size of a list of values. -/
def jsizeL : List Json → Nat
  | [] => 0
  | x :: xs => jsize x + jsizeL xs

/-- Size of a list of key-value pairs. -/
def jsizeP : List (String × Json) → Nat
  | [] => 0
  | (_, v) :: ps => jsize v + jsizeP ps

end

/-- Python `sep.join(parts)`. -/
def joinSep (sep : String) : List String → String
  | [] => ""
  | [a] => a
  | a :: rest => a ++ sep ++ joinSep sep rest

/-- Python `repr()` of a JSON-originated value, by fuel on depth.
String escaping inside repr is not modelled (no claim depends on it). -/
def pyReprF : Nat → Json → String
  | 0, _ => ""
  | fuel + 1, v =>
    match v with
    | Json.null => "None"
    | Json.bool true => "True"
    | Json.bool false => "False"
    | Json.num s => s
    | Json.str s => "\x27" ++ s ++ "\x27"
    | Json.arr xs => "[" ++ joinSep ", " (xs.map (pyReprF fuel)) ++ "]"
    | Json.obj kvs =>
      lbraceS ++
        joinSep ", " (kvs.map (fun p => "\x27" ++ p.1 ++ "\x27: " ++ pyReprF fuel p.2)) ++
        rbraceS

/-- Python `str()` of a JSON-originated value, as interpolated by an
f-string: strings verbatim, `None`/`True`/`False` spelled the Python
way, containers via `repr`.  (For floats the lexeme is kept; the exact
`str(float)` normalization is not modelled — no claim depends on it.) -/
def pyStrJ : Json → String
  | Json.str s => s
  | Json.null => "None"
  | Json.bool true => "True"
  | Json.bool false => "False"
  | Json.num s => s
  | v => pyReprF (jsize v) v

/-- `str()` of an optional string, as f-strings render `None`. -/
def pyStrOpt : Option String → String
  | none => "None"
  | some s => s

/-- `json.dumps` of a value, by fuel on depth (the `ensure_ascii`
escaping is not modelled; the output only feeds prompt text). -/
def jsonDumpsF : Nat → Json → String
  | 0, _ => ""
  | fuel + 1, v =>
    match v with
    | Json.null => "null"
    | Json.bool true => "true"
    | Json.bool false => "false"
    | Json.num s => s
    | Json.str s => "\"" ++ s ++ "\""
    | Json.arr xs => "[" ++ joinSep ", " (xs.map (jsonDumpsF fuel)) ++ "]"
    | Json.obj kvs =>
      lbraceS ++
        joinSep ", " (kvs.map (fun p => "\"" ++ p.1 ++ "\": " ++ jsonDumpsF fuel p.2)) ++
        rbraceS

/-- `json.dumps` at sufficient fuel. -/
def jsonDumps (v : Json) : String := jsonDumpsF (jsize v) v

/-! ### The protocol codec (`run_agent`, agents.py lines 132-167)

`run_agent` builds a prompt, calls the LLM transport, and then parses the
raw reply.  The transport is an external collaborator, so the embedding
covers the codec: raw reply text in, decoded record (or raised
exception) out. -/

/-- The substring from the first opening brace to the last closing brace,
mirroring `raw.find`/`raw.rfind` plus the guard `start != -1 and
end > start` (agents.py lines 141-144): `none` when there is no such
well-ordered pair of braces. -/
def braceSlice (raw : String) : Option String :=
  let t := raw.toList.dropWhile (fun c => c ≠ lbrace)
  if t.isEmpty then none
  else
    let r := t.reverse.dropWhile (fun c => c ≠ rbrace)
    if r.isEmpty then none else some (String.mk r.reverse)

/-- The two parse stages of `run_agent`: parse the whole text; on
failure parse the brace slice (the bare `except` around stage two turns
any stage-two failure into `None`). -/
def codecParse (raw : String) : Option Json :=
  match jsonLoads raw with
  | some v => some v
  | none =>
    match braceSlice raw with
    | some sub => jsonLoads sub
    | none => none

/-- The degraded record synthesized when both parse stages fail (or
produce `None`), agents.py lines 150-158. -/
def fallback_record (raw : String) : PyDict :=
  [("thought", Json.str "JSON parsing failed"),
   ("action", Json.str "final"),
   ("tool", Json.null),
   ("target_agent", Json.null),
   ("args", Json.obj []),
   ("answer", Json.str raw)]

/-- The `setdefault` chain of agents.py lines 161-166: fill each missing
key with its documented default. -/
def ensure_defaults (d : PyDict) : PyDict :=
  pySetdefault (pySetdefault (pySetdefault (pySetdefault (pySetdefault (pySetdefault d
    "thought" (Json.str "")) "action" (Json.str "final")) "tool" Json.null)
    "target_agent" Json.null) "args" (Json.obj [])) "answer" (Json.str "")

/-- The decode step of `run_agent` on the raw model reply.  A
successfully parsed object gets its defaults filled; a whole-text parse
that yields JSON `null` leaves `data` as Python `None`, which triggers
the fallback; a whole-text parse that yields any other non-object value
(a number, string, boolean or array) reaches `data.setdefault` on a
non-dict and raises `AttributeError`.  (Stage two can only ever produce
an object, since the slice starts at a brace and must parse fully.) -/
def run_agent_decode (raw : String) : Except PyErr PyDict :=
  match codecParse raw with
  | none => Except.ok (ensure_defaults (fallback_record raw))
  | some Json.null => Except.ok (ensure_defaults (fallback_record raw))
  | some (Json.obj kvs) => Except.ok (ensure_defaults kvs)
  | some _ => Except.error PyErr.attributeError

/-! ### The memory store (memory.py)

The three SQLite tables become explicit lists of rows inside a state
record.  `CURRENT_TIMESTAMP` / `datetime.now()` are abstracted by a
strictly increasing tick counter, and the md5-hexdigest-truncation used
for session ids becomes a hash-function parameter.  `AUTOINCREMENT`
columns are modelled by explicit next-id counters. -/

/-- A row of the `sessions` table. -/
structure SessionRow where
  session_id : String
  user_id : Option String
  created_at : Nat
  last_activity : Nat
  message_count : Nat
  metadata : Option String
deriving Repr, DecidableEq

/-- A row of the `conversations` table. -/
structure ConversationRow where
  id : Nat
  session_id : String
  user_id : Option String
  timestamp : Nat
  user_message : String
  ai_response : String
  persona : Option String
  metadata : Option String
deriving Repr, DecidableEq

/-- A row of the `memory_facts` table. -/
structure FactRow where
  id : Nat
  user_id : Option String
  fact_type : String
  fact_key : String
  fact_value : String
  confidence : Rat
  created_at : Nat
  updated_at : Nat
  source_session : Option String
deriving Repr, DecidableEq

/-- The whole database state. -/
structure MemState where
  sessions : List SessionRow
  conversations : List ConversationRow
  memory_facts : List FactRow
  clock : Nat
  nextConvId : Nat
  nextFactId : Nat
deriving Repr, DecidableEq

/-- The freshly initialized database. -/
def emptyMem : MemState :=
  { sessions := [], conversations := [], memory_facts := [],
    clock := 0, nextConvId := 1, nextFactId := 1 }

/-- Truthiness of an optional string (`if session_id:` style guards):
`None` and `""` are falsy. -/
def pyTruthyOpt : Option String → Bool
  | none => false
  | some s => !s.isEmpty

/-- Whether a session id is present in the `sessions` table. -/
def sessionExistsB (s : MemState) (sid : String) : Bool :=
  s.sessions.any (fun r => r.session_id == sid)

/-- The id minted by `create_session`:
`hashlib.md5(f"{user_id}_{timestamp}".encode()).hexdigest()[:16]`, with
the md5-truncate step abstracted as the `hash` parameter and the
`datetime.now().isoformat()` timestamp abstracted as the tick. -/
def mintSessionId (hash : String → String) (user_id : Option String) (clock : Nat) : String :=
  hash (pyStrOpt user_id ++ "_" ++ toString clock)

/-- `create_session` (memory.py lines 96-121): mint an id and INSERT a
new session row.  `session_id` is the table PRIMARY KEY, so inserting an
id that is already present raises `IntegrityError` instead of storing a
duplicate. -/
def create_session (hash : String → String) (user_id : Option String) (s : MemState) :
    Except PyErr (String × MemState) :=
  let session_id := mintSessionId hash user_id s.clock
  let row : SessionRow :=
    { session_id := session_id, user_id := user_id, created_at := s.clock,
      last_activity := s.clock, message_count := 0,
      metadata := some ("created:" ++ toString s.clock) }
  if sessionExistsB s session_id then Except.error PyErr.integrityError
  else
    Except.ok (session_id,
      { s with
        sessions := s.sessions ++ [row],
        clock := s.clock + 1 })

/-- `get_or_create_session` (memory.py lines 124-147).  Note the
`if session_id:` truthiness guard: `None` and the empty string both fall
through to creation. -/
def get_or_create_session (hash : String → String) (session_id : Option String)
    (user_id : Option String) (s : MemState) : Except PyErr (String × MemState) :=
  match session_id with
  | some sid =>
    if !sid.isEmpty then
      if sessionExistsB s sid then Except.ok (sid, s)
      else create_session hash user_id s
    else create_session hash user_id s
  | none => create_session hash user_id s

/-- `update_session_activity` (memory.py lines 150-163): bump
`last_activity` and `message_count` of the named session. -/
def update_session_activity (session_id : String) (s : MemState) : MemState :=
  { s with
    sessions := s.sessions.map (fun r =>
      if r.session_id == session_id then
        { r with last_activity := s.clock, message_count := r.message_count + 1 }
      else r),
    clock := s.clock + 1 }

/-- `save_conversation` (memory.py lines 170-214): INSERT one immutable
conversation row, then update the owning session. -/
def save_conversation (session_id : String) (user_message : String) (ai_response : String)
    (user_id : Option String) (persona : Option String) (metadata : Option String)
    (s : MemState) : Nat × MemState :=
  let row : ConversationRow :=
    { id := s.nextConvId, session_id := session_id, user_id := user_id,
      timestamp := s.clock, user_message := user_message, ai_response := ai_response,
      persona := persona, metadata := metadata }
  let s1 :=
    { s with
      conversations := s.conversations ++ [row],
      nextConvId := s.nextConvId + 1,
      clock := s.clock + 1 }
  (row.id, update_session_activity session_id s1)

/-- `ORDER BY timestamp DESC`: newer rows first.  (SQLite leaves the
relative order of equal timestamps unspecified; the model fixes the
stable insertion-sort order.) -/
def convDescRel (a b : ConversationRow) : Prop := b.timestamp ≤ a.timestamp

instance : DecidableRel convDescRel := fun a b => Nat.decLe b.timestamp a.timestamp

/-- `get_conversation_history` (memory.py lines 221-270): the newest
`limit` turns of a session, returned in chronological order. -/
def get_conversation_history (session_id : String) (limit : Nat) (s : MemState) :
    List ConversationRow :=
  (((s.conversations.filter (fun r => r.session_id == session_id)).insertionSort
      convDescRel).take limit).reverse

/-- The per-turn rendering of `get_recent_context`:
`f"User: ...\nAI: ...\n"`. -/
def renderTurn (t : ConversationRow) : String :=
  "User: " ++ t.user_message ++ "\nAI: " ++ t.ai_response ++ "\n"

/-- The selection loop of `get_recent_context` (memory.py lines
297-305): include whole turn renderings while the running total stays
within `max_chars`; stop at the first turn that would overflow. -/
def selectTurns (maxChars : Nat) : Nat → List String → List String
  | _, [] => []
  | total, p :: ps =>
    if maxChars < total + p.length then []
    else p :: selectTurns maxChars (total + p.length) ps

/-- `get_recent_context` (memory.py lines 273-310).  Note that the
`"Previous conversation:\n"` header and the `"\n"` joiners are *not*
counted against `max_chars`. -/
def get_recent_context (session_id : String) (max_turns max_chars : Nat) (s : MemState) :
    String :=
  let history := get_conversation_history session_id max_turns s
  if history.isEmpty then ""
  else
    let context_parts := selectTurns max_chars 0 (history.map renderTurn)
    if context_parts.isEmpty then ""
    else "Previous conversation:\n" ++ joinSep "\n" context_parts

/-- Whether an INSERT into `memory_facts` hits the
`UNIQUE(user_id, fact_key)` index.  SQLite unique indexes treat NULLs as
distinct from everything (including other NULLs), so a row with NULL
`user_id` never conflicts. -/
def factConflicts (s : MemState) (user_id : Option String) (fact_key : String) : Bool :=
  match user_id with
  | none => false
  | some u => s.memory_facts.any (fun r => r.user_id == some u && r.fact_key == fact_key)

/-- `save_memory_fact` (memory.py lines 364-396): INSERT with
`ON CONFLICT(user_id, fact_key) DO UPDATE` replacing value and
confidence and bumping `updated_at`. -/
def save_memory_fact (fact_key fact_value : String) (fact_type : String)
    (user_id : Option String) (session_id : Option String) (confidence : Rat)
    (s : MemState) : MemState :=
  let newRow : FactRow :=
    { id := s.nextFactId, user_id := user_id, fact_type := fact_type,
      fact_key := fact_key, fact_value := fact_value, confidence := confidence,
      created_at := s.clock, updated_at := s.clock, source_session := session_id }
  if factConflicts s user_id fact_key then
    { s with
      memory_facts := s.memory_facts.map (fun r =>
        if r.user_id == user_id && r.fact_key == fact_key then
          { r with
            fact_value := fact_value,
            confidence := confidence,
            updated_at := s.clock }
        else r),
      clock := s.clock + 1 }
  else
    { s with
      memory_facts := s.memory_facts ++ [newRow],
      nextFactId := s.nextFactId + 1,
      clock := s.clock + 1 }

/-- `ORDER BY confidence DESC, updated_at DESC` (ties beyond the two
keys are unspecified in SQL; the model fixes the stable insertion-sort
order). -/
def factOrderRel (a b : FactRow) : Prop :=
  b.confidence < a.confidence ∨ (a.confidence = b.confidence ∧ b.updated_at ≤ a.updated_at)

instance : DecidableRel factOrderRel := fun _ _ => by
  unfold factOrderRel; infer_instance

instance : IsTotal FactRow factOrderRel where
  total a b := by
    rcases lt_trichotomy a.confidence b.confidence with h | h | h
    · exact Or.inr (Or.inl h)
    · rcases Nat.le_total b.updated_at a.updated_at with h2 | h2
      · exact Or.inl (Or.inr ⟨h, h2⟩)
      · exact Or.inr (Or.inr ⟨h.symm, h2⟩)
    · exact Or.inl (Or.inl h)

instance : IsTrans FactRow factOrderRel where
  trans a b c hab hbc := by
    rcases hab with h1 | ⟨e1, u1⟩
    · rcases hbc with h2 | ⟨e2, u2⟩
      · exact Or.inl (h2.trans h1)
      · exact Or.inl (e2 ▸ h1)
    · rcases hbc with h2 | ⟨e2, u2⟩
      · exact Or.inl (e1 ▸ h2)
      · exact Or.inr ⟨e1.trans e2, u2.trans u1⟩

/-- `get_memory_facts` (memory.py lines 399-434).  Both filters sit
behind truthiness guards, so a `None` (or empty) `user_id` disables the
user filter entirely. -/
def get_memory_facts (user_id : Option String) (fact_type : Option String) (s : MemState) :
    List FactRow :=
  let l1 := if pyTruthyOpt user_id then s.memory_facts.filter (fun r => r.user_id == user_id)
            else s.memory_facts
  let l2 := if pyTruthyOpt fact_type then l1.filter (fun r => some r.fact_type == fact_type)
            else l1
  l2.insertionSort factOrderRel

/-- One rendered fact line of `format_memory_facts`. -/
def factLine (f : FactRow) : String := "- " ++ f.fact_key ++ ": " ++ f.fact_value

/-- `format_memory_facts` (memory.py lines 437-456). -/
def format_memory_facts (user_id : Option String) (s : MemState) : String :=
  let facts := get_memory_facts user_id none s
  if facts.isEmpty then ""
  else "Known facts about user:\n" ++ joinSep "\n" (facts.map factLine)

/-! ### Tools (tools.py)

Each tool body is a `try`/`except` around an effectful operation; the
operations themselves (filesystem, `exec`, HTTP) are oracle fields of
`ToolWorld`, returning either a result or the message of the exception
they raise.  The tool functions turn every oracle failure into text, so
they always return a string — mirroring that the `except` clauses cover
the whole body. -/

/-- The effectful collaborators used by tools.py, as oracles.  Arguments
keep their dynamic (JSON) type: an oracle models the exception Python
would raise on an ill-typed argument (for example `open` on a non-str
path) by returning the error message. -/
structure ToolWorld where
  openRead : Json → Except String String
  openWrite : Json → Json → Except String Unit
  execPy : Json → Except String String
  httpPost : String → Json → Json → Except String String

/-- `tool_read_file` (tools.py lines 13-19). -/
def tool_read_file (w : ToolWorld) (path : Json) : String :=
  match w.openRead path with
  | Except.ok content => content
  | Except.error e => "ERROR(read_file): " ++ e

/-- `len(content)` in the success message of `tool_write_file`.  The
success branch is only reachable when the write oracle accepted the
content, which for text-mode `f.write` forces a string. -/
def pyLen : Json → Nat
  | Json.str s => s.length
  | Json.arr xs => xs.length
  | Json.obj kvs => kvs.length
  | _ => 0

/-- `tool_write_file` (tools.py lines 22-29). -/
def tool_write_file (w : ToolWorld) (path content : Json) : String :=
  match w.openWrite path content with
  | Except.ok _ => "OK: Wrote " ++ toString (pyLen content) ++ " chars to " ++ pyStrJ path
  | Except.error e => "ERROR(write_file): " ++ e

/-- `tool_run_python` (tools.py lines 32-42): note that its failure
shape is `EXEC_ERROR: ...`, not `ERROR(run_python): ...`. -/
def tool_run_python (w : ToolWorld) (code : Json) : String :=
  match w.execPy code with
  | Except.ok localsRepr => "EXEC_OK: " ++ localsRepr
  | Except.error e => "EXEC_ERROR: " ++ e

/-- `server_url.rstrip("/")`. -/
def rstripSlashes (u : String) : String :=
  String.mk (u.toList.reverse.dropWhile (fun c => c = '/')).reverse

/-- `call_mcp_tool` (tools.py lines 49-70).  The registry always passes
a literal string for `server_url`; `tool_name` and `args` come from the
model and stay dynamic. -/
def call_mcp_tool (w : ToolWorld) (server_url : String) (tool_name args : Json) : String :=
  match w.httpPost (rstripSlashes server_url ++ "/invoke") tool_name args with
  | Except.ok text => text
  | Except.error e => "ERROR(mcp:" ++ server_url ++ "," ++ pyStrJ tool_name ++ "): " ++ e

/-- Python positional call binding: the call raises `TypeError` unless
exactly `arity` positional arguments are supplied. -/
def pyCallPos (arity : Nat) (args : List Json) (body : List Json → String) :
    Except PyErr String :=
  if args.length = arity then Except.ok (body args) else Except.error PyErr.typeError

/-- Python keyword call binding onto a parameter list without defaults:
raises `TypeError` on a missing parameter or an unexpected keyword. -/
def pyCallKw (params : List String) (kwargs : PyDict) (body : List Json → String) :
    Except PyErr String :=
  if kwargs.all (fun q => params.contains q.1) then
    match params.mapM (fun p => dictGet? kwargs p) with
    | some args => Except.ok (body args)
    | none => Except.error PyErr.typeError
  else Except.error PyErr.typeError

/-- The keys of the `TOOLS` registry (tools.py lines 77-100). -/
def toolNames : List String :=
  ["read_file", "write_file", "run_python", "mcp_filesystem", "mcp_trader"]

/-- Extract the string payload (used only for the statically-literal
`server_url` argument). -/
def jstr : Json → String
  | Json.str s => s
  | _ => ""

/-- Invoking `TOOLS[name](**kw)`: each registry entry is a
`lambda **kw: ...` that builds the argument list from `kw.get(...)`
defaults and calls the underlying tool function through explicit Python
call binding. -/
def callTool (w : ToolWorld) (name : String) (kw : PyDict) : Except PyErr String :=
  if name = "read_file" then
    pyCallPos 1 [dictGetD kw "path" (Json.str "")]
      (fun a => tool_read_file w (a.getD 0 Json.null))
  else if name = "write_file" then
    pyCallPos 2 [dictGetD kw "path" (Json.str ""), dictGetD kw "content" (Json.str "")]
      (fun a => tool_write_file w (a.getD 0 Json.null) (a.getD 1 Json.null))
  else if name = "run_python" then
    pyCallPos 1 [dictGetD kw "code" (Json.str "")]
      (fun a => tool_run_python w (a.getD 0 Json.null))
  else if name = "mcp_filesystem" then
    pyCallKw ["server_url", "tool_name", "args"]
      [("server_url", Json.str "http://localhost:8001"),
       ("tool_name", dictGetD kw "tool" (Json.str "list_files")),
       ("args", dictGetD kw "args" (Json.obj []))]
      (fun a => call_mcp_tool w (jstr (a.getD 0 Json.null)) (a.getD 1 Json.null)
        (a.getD 2 Json.null))
  else if name = "mcp_trader" then
    pyCallKw ["server_url", "tool_name", "args"]
      [("server_url", Json.str "http://localhost:8002"),
       ("tool_name", dictGetD kw "tool" (Json.str "backtest")),
       ("args", dictGetD kw "args" (Json.obj []))]
      (fun a => call_mcp_tool w (jstr (a.getD 0 Json.null)) (a.getD 1 Json.null)
        (a.getD 2 Json.null))
  else Except.error PyErr.typeError

/-! ### The orchestration loop (core.py)

`run_agent` prompt assembly and the LLM transport are external; the raw
model reply of each loop iteration is an oracle `llmRaw : Nat → String`
indexed by the step counter (any concrete run corresponds to some
oracle), decoded by the codec above.  Everything after the decode is
embedded from core.py. -/

/-- models.py `OrchestratorEvent`. -/
structure OrchestratorEvent where
  step : Nat
  agent : String
  action : String
  tool : Option String
  target_agent : Option String
  thought : String
deriving Repr, DecidableEq

/-- A value acceptable for a pydantic `Optional[str]` field. -/
def asOptStr? : Json → Option (Option String)
  | Json.null => some none
  | Json.str s => some (some s)
  | _ => none

/-- Constructing the pydantic event: `action`/`thought` must be strings
and `tool`/`target_agent` optional strings, otherwise validation fails.
(pydantic v1 would additionally coerce numbers to strings; every claim
below constrains these fields to well-typed values, so the difference
does not matter.) -/
def mkEvent (step : Nat) (agent : String) (action tool target thought : Json) :
    Except PyErr OrchestratorEvent :=
  match action, thought, asOptStr? tool, asOptStr? target with
  | Json.str a, Json.str th, some t, some tg =>
    Except.ok { step := step, agent := agent, action := a,
                tool := t, target_agent := tg, thought := th }
  | _, _, _, _ => Except.error PyErr.validationError

/-- Python `==` between a dynamic value and a string literal. -/
def pyEq (v : Json) (s : String) : Bool :=
  match v with
  | Json.str t => t == s
  | _ => false

/-- Whether a value can be hashed (`x in some_dict` raises `TypeError`
on lists and dicts). -/
def jsonHashable : Json → Bool
  | Json.arr _ => false
  | Json.obj _ => false
  | _ => true

/-- `x in registry` for a dict keyed by strings. -/
def pyMem (x : Json) (names : List String) : Except PyErr Bool :=
  if jsonHashable x then
    Except.ok (match x with
      | Json.str s => names.contains s
      | _ => false)
  else Except.error PyErr.typeError

/-- The keys of the `AGENTS` registry (agents.py lines 14-75).  The role
instruction texts only feed the prompt, which is behind the LLM oracle,
so just the names are modelled. -/
def agentNames : List String := ["orchestrator", "coder", "researcher"]

/-- The mutable control state of one `orchestrate` call. -/
structure LoopSt where
  current_agent : String
  current_query : Json
  context_log : List String
  events : List OrchestratorEvent
  mem : MemState

/-- The context-log line appended each step:
`f"[{current_agent} step {step+1}] {json.dumps(result, ensure_ascii=False)}"`. -/
def stepRecord (agent : String) (stepIdx : Nat) (rec : PyDict) : String :=
  "[" ++ agent ++ " step " ++ toString (stepIdx + 1) ++ "] " ++ jsonDumps (Json.obj rec)

/-- The state after escalating an unknown tool (core.py lines 122-128). -/
def unknownToolNext (st : LoopSt) (tool_name : Json) : LoopSt :=
  { st with
    current_agent := "orchestrator",
    current_query := Json.str ("Unknown tool \x27" ++ pyStrJ tool_name ++
      "\x27. Please provide a final answer with available information.") }

/-- The state after escalating an unknown agent (core.py lines 135-141). -/
def unknownAgentNext (st : LoopSt) (target_agent : Json) : LoopSt :=
  { st with
    current_agent := "orchestrator",
    current_query := Json.str ("Unknown agent \x27" ++ pyStrJ target_agent ++
      "\x27. Please handle the task yourself or use available tools.") }

/-- One iteration of the main loop (core.py lines 64-150), from a
decoded record: extract fields, record the event, extend the context
log, and dispatch on the action.  `Sum.inl` is the next loop state,
`Sum.inr` the final answer after persisting the turn. -/
def orchStep (w : ToolWorld) (user_input : String) (session_id : String)
    (user_id : Option String) (persona : Option String)
    (rec : PyDict) (stepIdx : Nat) (st : LoopSt) :
    Except PyErr (LoopSt ⊕ (String × LoopSt)) :=
  let thought := dictGetD rec "thought" (Json.str "")
  let action := dictGetD rec "action" (Json.str "final")
  let tool_name := dictGetD rec "tool" Json.null
  let target_agent := dictGetD rec "target_agent" Json.null
  let args := pyOr (dictGetD rec "args" (Json.obj [])) (Json.obj [])
  let answer := dictGetD rec "answer" (Json.str "")
  match mkEvent (stepIdx + 1) st.current_agent action tool_name target_agent thought with
  | Except.error e => Except.error e
  | Except.ok ev =>
    let st1 : LoopSt :=
      { st with
        events := st.events ++ [ev],
        context_log := st.context_log ++ [stepRecord st.current_agent stepIdx rec] }
    if pyEq action "final" then
      match pyOr answer (Json.str "[NO ANSWER]") with
      | Json.str fa =>
        let saved := save_conversation session_id user_input fa user_id persona none st1.mem
        Except.ok (Sum.inr (fa, { st1 with mem := saved.2 }))
      | _ =>
        -- a truthy non-string answer cannot be returned through the
        -- pydantic response model; modelled as the raised error
        Except.error PyErr.typeError
    else if pyEq action "use_tool" then
      if pyTruthy tool_name then
        match pyMem tool_name toolNames with
        | Except.error e => Except.error e
        | Except.ok true =>
          match args, tool_name with
          | Json.obj kwargs, Json.str tn =>
            match callTool w tn kwargs with
            | Except.error e => Except.error e
            | Except.ok tool_output =>
              Except.ok (Sum.inl { st1 with
                current_query := Json.str ("Tool `" ++ tn ++ "` output:\n" ++ tool_output ++
                  "\n\nNow continue your reasoning and decide next action.") })
          | _, _ =>
            -- `tool_fn(**args)` with a truthy non-dict `args` raises
            Except.error PyErr.typeError
        | Except.ok false => Except.ok (Sum.inl (unknownToolNext st1 tool_name))
      else Except.ok (Sum.inl (unknownToolNext st1 tool_name))
    else if pyEq action "delegate" then
      if pyTruthy target_agent then
        match pyMem target_agent agentNames with
        | Except.error e => Except.error e
        | Except.ok true =>
          match target_agent, args with
          | Json.str tg, Json.obj kwargs =>
            Except.ok (Sum.inl { st1 with
              current_agent := tg,
              current_query := pyOr (dictGetD kwargs "task" answer)
                (Json.str ("User goal: " ++ user_input)) })
          | _, _ =>
            -- `args.get` on a truthy non-dict `args` raises
            Except.error PyErr.attributeError
        | Except.ok false => Except.ok (Sum.inl (unknownAgentNext st1 target_agent))
      else Except.ok (Sum.inl (unknownAgentNext st1 target_agent))
    else
      Except.ok (Sum.inl { st1 with
        current_agent := "orchestrator",
        current_query := Json.str ("Invalid action \x27" ++ pyStrJ action ++
          "\x27. Previous JSON: " ++ jsonDumps (Json.obj rec) ++
          "\nPlease provide a \x27final\x27 answer.") })

/-- The main loop (core.py lines 63-161), by remaining step budget.
Exhausting the budget persists the sentinel turn and returns the
sentinel answer. -/
def orchLoop (w : ToolWorld) (recs : Nat → Except PyErr PyDict) (user_input : String)
    (session_id : String) (user_id : Option String) (persona : Option String)
    (context_used : Bool) :
    Nat → Nat → LoopSt →
    Except PyErr (String × List OrchestratorEvent × String × Bool × MemState)
  | 0, _, st =>
    let fa := "[MAX STEPS REACHED - No final answer provided]"
    let saved := save_conversation session_id user_input fa user_id persona none st.mem
    Except.ok (fa, st.events, session_id, context_used, saved.2)
  | fuel + 1, stepIdx, st =>
    match recs stepIdx with
    | Except.error e => Except.error e
    | Except.ok rec =>
      match orchStep w user_input session_id user_id persona rec stepIdx st with
      | Except.error e => Except.error e
      | Except.ok (Sum.inl st2) =>
        orchLoop w recs user_input session_id user_id persona context_used fuel
          (stepIdx + 1) st2
      | Except.ok (Sum.inr (ans, st2)) =>
        Except.ok (ans, st2.events, session_id, context_used, st2.mem)

/-- `orchestrate` (core.py lines 13-161): session setup, context
assembly, then the loop.  The result mirrors the Python return tuple
`(final_answer, events, session_id, context_used)` plus the final store
state. -/
def orchestrate (hash : String → String) (w : ToolWorld) (llmRaw : Nat → String)
    (user_input : String) (max_steps : Nat) (_system_instruction : String)
    (session_id : Option String) (user_id : Option String) (persona : Option String)
    (s : MemState) :
    Except PyErr (String × List OrchestratorEvent × String × Bool × MemState) :=
  match get_or_create_session hash session_id user_id s with
  | Except.error e => Except.error e
  | Except.ok (sid, s1) =>
    let conversation_context := get_recent_context sid 5 2000 s1
    let user_facts := if pyTruthyOpt user_id then format_memory_facts user_id s1 else ""
    let full_context := (if !user_facts.isEmpty then [user_facts] else []) ++
      (if !conversation_context.isEmpty then [conversation_context] else [])
    let context_used := !full_context.isEmpty
    let context_log :=
      if !full_context.isEmpty then [joinSep "\n\n" full_context] else []
    orchLoop w (fun i => run_agent_decode (llmRaw i)) user_input sid user_id persona
      context_used max_steps 0
      { current_agent := "orchestrator", current_query := Json.str user_input,
        context_log := context_log, events := [], mem := s1 }

/-! ### Derived predicates and concrete fixtures used by the statements -/

/-- Total character count of a list of strings. -/
def sumLen (l : List String) : Nat := (l.map String.length).sum

/-- The `action` field as read by the loop (core.py line 74). -/
def recAction (rec : PyDict) : Json := dictGetD rec "action" (Json.str "final")

/-- The argument dict as used by the loop (core.py line 77):
`result.get("args", {}) or {}`. -/
def recArgs (rec : PyDict) : Json := pyOr (dictGetD rec "args" (Json.obj [])) (Json.obj [])

/-- Whether the four event-bound fields of a decoded record satisfy the
pydantic `OrchestratorEvent` field types, so that recording the step
event does not raise. -/
def eventFieldsOk (rec : PyDict) : Bool :=
  (match dictGetD rec "action" (Json.str "final") with
    | Json.str _ => true
    | _ => false) &&
  (match dictGetD rec "thought" (Json.str "") with
    | Json.str _ => true
    | _ => false) &&
  (asOptStr? (dictGetD rec "tool" Json.null)).isSome &&
  (asOptStr? (dictGetD rec "target_agent" Json.null)).isSome

/-- Whether the dispatch phase of a step is free of raises: a known tool
or a known delegation target must come with dict-shaped args (otherwise
`tool_fn(**args)` / `args.get` raises). -/
def dispatchOk (rec : PyDict) : Bool :=
  if pyEq (recAction rec) "use_tool" then
    match dictGetD rec "tool" Json.null with
    | Json.str t =>
      if toolNames.contains t then
        match recArgs rec with
        | Json.obj _ => true
        | _ => false
      else true
    | _ => true
  else if pyEq (recAction rec) "delegate" then
    match dictGetD rec "target_agent" Json.null with
    | Json.str g =>
      if agentNames.contains g then
        match recArgs rec with
        | Json.obj _ => true
        | _ => false
      else true
    | _ => true
  else true

/-- A non-final decoded record completes its loop iteration without
raising exactly when its event fields are well-typed and its dispatch is
raise-free. -/
def stepOk (rec : PyDict) : Bool := eventFieldsOk rec && dispatchOk rec

/-- A concrete stand-in for the md5-hexdigest-truncate id derivation. -/
def exampleHash : String → String := fun s => "H" ++ s

/-- A world whose oracles all succeed. -/
def exampleWorld : ToolWorld :=
  { openRead := fun _ => Except.ok "data",
    openWrite := fun _ _ => Except.ok (),
    execPy := fun _ => Except.ok "",
    httpPost := fun _ _ _ => Except.ok "resp" }

/-- A world whose oracles all fail, with the division-by-zero message on
`exec` (as `exec("1/0")` produces). -/
def failWorld : ToolWorld :=
  { openRead := fun _ => Except.error "boom",
    openWrite := fun _ _ => Except.error "boom",
    execPy := fun _ => Except.error "division by zero",
    httpPost := fun _ _ _ => Except.error "boom" }

/-- An LLM oracle that always replies with a JSON object whose action
tag is unrecognized. -/
def exRawNop : Nat → String := fun _ => "\x7b\"action\": \"nop\"\x7d"

/-- A concrete loop state over the empty store. -/
def exLoopSt : LoopSt :=
  { current_agent := "orchestrator", current_query := Json.str "q",
    context_log := [], events := [], mem := emptyMem }

/-- A session row named `abc`. -/
def exSessionRow : SessionRow :=
  { session_id := "abc", user_id := none, created_at := 0,
    last_activity := 0, message_count := 0, metadata := none }

/-- A store holding exactly one session named `abc`. -/
def exMemWithSession : MemState :=
  { sessions := [exSessionRow], conversations := [], memory_facts := [],
    clock := 1, nextConvId := 1, nextFactId := 1 }

/-- A conversation turn whose two texts are empty (its rendering is the
12-character `User: \nAI: \n`). -/
def exTurnRow : ConversationRow :=
  { id := 1, session_id := "s", user_id := none, timestamp := 0,
    user_message := "", ai_response := "", persona := none, metadata := none }

/-- A store holding one session and the empty-texts turn. -/
def exMemOneTurn : MemState :=
  { sessions := [{ exSessionRow with session_id := "s", message_count := 1 }],
    conversations := [exTurnRow],
    memory_facts := [], clock := 1, nextConvId := 2, nextFactId := 1 }

/-- A store holding facts of two different users. -/
def exMemFacts : MemState :=
  { sessions := [], conversations := [],
    memory_facts :=
      [{ id := 1, user_id := some "alice", fact_type := "general", fact_key := "likes",
         fact_value := "tea", confidence := 1, created_at := 0, updated_at := 0,
         source_session := none },
       { id := 2, user_id := some "bob", fact_type := "general", fact_key := "os",
         fact_value := "linux", confidence := (1 : Rat) / 2, created_at := 1, updated_at := 1,
         source_session := none }],
    clock := 2, nextConvId := 1, nextFactId := 3 }

/-! ## Theorems -/

/-- Lookup after appending a single binding. -/
theorem dictGet?_append (d : PyDict) (k k' : String) (v : Json) :
    dictGet? (d ++ [(k', v)]) k =
      match dictGet? d k with
      | some x => some x
      | none => if k' = k then some v else none := by
  unfold dictGet?
  rw [List.find?_append]
  cases hf : List.find? (fun p => p.1 == k) d with
  | some p => simp [Option.or]
  | none =>
    simp only [Option.or, List.find?]
    by_cases h : k' = k
    · simp [h]
    · have hb : (k' == k) = false := by simp [h]
      simp [hb, h]

/-- `setdefault` seen through lookup: an existing binding survives, a
missing one becomes the default. -/
theorem dictGet?_pySetdefault (d : PyDict) (k k' : String) (v : Json) :
    dictGet? (pySetdefault d k' v) k =
      match dictGet? d k with
      | some x => some x
      | none => if k' = k then some v else none := by
  unfold pySetdefault
  cases h : dictGet? d k' with
  | some x =>
    cases h2 : dictGet? d k with
    | some y => simp [h2]
    | none =>
      by_cases he : k' = k
      · subst he; rw [h] at h2; cases h2
      · simp [h2, he]
  | none => exact dictGet?_append d k k' v

/-- An existing binding survives the whole `setdefault` chain. -/
theorem ensure_defaults_preserves (d : PyDict) (k : String) (x : Json)
    (h : dictGet? d k = some x) : dictGet? (ensure_defaults d) k = some x := by
  unfold ensure_defaults
  rw [dictGet?_pySetdefault, dictGet?_pySetdefault, dictGet?_pySetdefault,
    dictGet?_pySetdefault, dictGet?_pySetdefault, dictGet?_pySetdefault, h]

/-- C7: every JSON object that survives either parse stage is accepted —
`run_agent_decode` returns it with the documented defaults filled in
(`action` ↦ `"final"`, `tool`/`target_agent` ↦ `None`, `args` ↦ `{}`,
`thought`/`answer` ↦ `""`) for exactly the missing keys, never replacing
the object by the degraded fallback record and never raising. -/
theorem parsed_object_gets_defaults (raw : String) (kvs : List (String × Json))
    (h : codecParse raw = some (Json.obj kvs)) :
    run_agent_decode raw = Except.ok (ensure_defaults kvs) ∧
    (∀ k x, dictGet? kvs k = some x → dictGet? (ensure_defaults kvs) k = some x) ∧
    (dictGet? kvs "thought" = none →
      dictGet? (ensure_defaults kvs) "thought" = some (Json.str "")) ∧
    (dictGet? kvs "action" = none →
      dictGet? (ensure_defaults kvs) "action" = some (Json.str "final")) ∧
    (dictGet? kvs "tool" = none →
      dictGet? (ensure_defaults kvs) "tool" = some Json.null) ∧
    (dictGet? kvs "target_agent" = none →
      dictGet? (ensure_defaults kvs) "target_agent" = some Json.null) ∧
    (dictGet? kvs "args" = none →
      dictGet? (ensure_defaults kvs) "args" = some (Json.obj [])) ∧
    (dictGet? kvs "answer" = none →
      dictGet? (ensure_defaults kvs) "answer" = some (Json.str "")) := by
  refine ⟨?_, ?_, ?_, ?_, ?_, ?_, ?_, ?_⟩
  · unfold run_agent_decode
    rw [h]
  · exact fun k x hk => ensure_defaults_preserves kvs k x hk
  all_goals {
    intro hk
    unfold ensure_defaults
    rw [dictGet?_pySetdefault, dictGet?_pySetdefault, dictGet?_pySetdefault,
      dictGet?_pySetdefault, dictGet?_pySetdefault, dictGet?_pySetdefault, hk]
    simp
  }

/-- Witness for C7 at the concrete reply `"{}"`: the empty object parses
at stage one and every default gets filled. -/
theorem parsed_object_gets_defaults_witness :
    run_agent_decode "\x7b\x7d" = Except.ok (ensure_defaults []) ∧
    dictGet? (ensure_defaults []) "action" = some (Json.str "final") ∧
    dictGet? (ensure_defaults []) "args" = some (Json.obj []) := by
  have h := parsed_object_gets_defaults "\x7b\x7d" [] rfl
  exact ⟨h.1, h.2.2.2.1 rfl, h.2.2.2.2.2.2.1 rfl⟩

/-- C1 (code bug): the codec is *not* total on raw model text.  The
reply `"42"` is valid JSON, so stage one succeeds with a non-dict value,
and `data.setdefault` then raises `AttributeError` — contradicting both
the documented contract (exactly one decoded record per reply, decoding
never raises) and the degraded-record fallback the function itself
carries for unparseable text. -/
theorem codec_raises_on_scalar_json :
    jsonLoads "42" = some (Json.num "42") ∧
    run_agent_decode "42" = Except.error PyErr.attributeError ∧
    run_agent_decode "hello" = Except.ok (fallback_record "hello") := by
  refine ⟨rfl, rfl, rfl⟩

/-- `create_session` never touches the conversations table. -/
theorem create_session_conversations (hash : String → String)
    (uid : Option String) (s : MemState) (p : String × MemState)
    (h : create_session hash uid s = Except.ok p) :
    p.2.conversations = s.conversations := by
  unfold create_session at h
  by_cases hc : sessionExistsB s (mintSessionId hash uid s.clock)
  · simp [hc] at h
  · simp [hc] at h
    subst h
    rfl

/-- `get_or_create_session` never touches the conversations table. -/
theorem get_or_create_session_conversations (hash : String → String)
    (sid? : Option String) (uid : Option String) (s : MemState) (p : String × MemState)
    (h : get_or_create_session hash sid? uid s = Except.ok p) :
    p.2.conversations = s.conversations := by
  unfold get_or_create_session at h
  cases sid? with
  | none => exact create_session_conversations hash uid s p h
  | some sid =>
    by_cases he : sid.isEmpty
    · simp [he] at h
      exact create_session_conversations hash uid s p h
    · simp [he] at h
      by_cases hx : sessionExistsB s sid
      · simp [hx] at h
        subst h
        rfl
      · simp [hx] at h
        exact create_session_conversations hash uid s p h

/-- C4: looking up an existing (non-empty) session id returns it
unchanged without touching the store; a `None` id (or one absent from
the table) mints the id derived from the hash of user and timestamp —
an id not present in the table before the call, provided the digest
does not collide (the negligible-collision assumption of spec section 5;
an actual collision raises `IntegrityError` rather than ever returning a
stale id) — and persists exactly one new session row with
`message_count = 0`. -/
theorem get_or_create_session_spec (hash : String → String) (uid : Option String)
    (s : MemState) :
    (∀ sid, sid ≠ "" → sessionExistsB s sid = true →
      get_or_create_session hash (some sid) uid s = Except.ok (sid, s)) ∧
    (∀ sid?, (∀ sid, sid? = some sid → sessionExistsB s sid = false ∨ sid = "") →
      sessionExistsB s (mintSessionId hash uid s.clock) = false →
      ∃ s' row, get_or_create_session hash sid? uid s =
          Except.ok (mintSessionId hash uid s.clock, s') ∧
        s'.sessions = s.sessions ++ [row] ∧
        s'.conversations = s.conversations ∧
        row.session_id = mintSessionId hash uid s.clock ∧
        row.user_id = uid ∧
        row.message_count = 0) := by
  constructor
  · intro sid hne hex
    have he : sid.isEmpty = false := by
      cases hval : sid.isEmpty
      · rfl
      · exact absurd ((String.isEmpty_iff sid).mp hval) hne
    unfold get_or_create_session
    simp [he, hex]
  · intro sid? habs hmint
    have hred : get_or_create_session hash sid? uid s = create_session hash uid s := by
      cases sid? with
      | none => rfl
      | some sid =>
        rcases habs sid rfl with hno | hemp
        · unfold get_or_create_session
          by_cases he : sid.isEmpty
          · simp [he]
          · simp [he, hno]
        · subst hemp
          rfl
    rw [hred]
    unfold create_session
    simp only [hmint, Bool.false_eq_true, if_false]
    exact ⟨_, _, rfl, rfl, rfl, rfl, rfl, rfl⟩

/-- Witness for C4: on a store holding only the session `abc`, the
existing id comes back unchanged, and a `None` id mints a fresh one with
a zero message count. -/
theorem get_or_create_session_spec_witness :
    get_or_create_session exampleHash (some "abc") none exMemWithSession =
      Except.ok ("abc", exMemWithSession) ∧
    ∃ s' row, get_or_create_session exampleHash none none exMemWithSession =
        Except.ok (mintSessionId exampleHash none exMemWithSession.clock, s') ∧
      s'.sessions = exMemWithSession.sessions ++ [row] ∧
      s'.conversations = exMemWithSession.conversations ∧
      row.session_id = mintSessionId exampleHash none exMemWithSession.clock ∧
      row.user_id = none ∧
      row.message_count = 0 := by
  constructor
  · exact (get_or_create_session_spec exampleHash none exMemWithSession).1 "abc"
      (by decide) (by decide)
  · exact (get_or_create_session_spec exampleHash none exMemWithSession).2 none
      (fun sid h => nomatch h) (by decide)

/-- Filtering a conditional map: rows that satisfy the predicate are
transformed, others pass through, and the transform preserves the
predicate. -/
theorem filter_map_cond (l : List FactRow) (p : FactRow → Bool) (f : FactRow → FactRow)
    (hp : ∀ r, p (f r) = p r) :
    (l.map (fun r => if p r then f r else r)).filter p = (l.filter p).map f := by
  induction l with
  | nil => rfl
  | cons a l ih =>
    by_cases ha : p a
    · simp [List.filter_cons, ha, hp a, ih]
    · simp [List.filter_cons, ha, ih]

/-- One `save_memory_fact` with a non-NULL user: starting from a store
with at most one row for the `(user, key)` pair, exactly one row for the
pair remains, carrying the new value and confidence with `updated_at`
stamped at the time of the call. -/
theorem save_fact_filter (u k v t : String) (ss : Option String) (c : Rat) (s : MemState)
    (hinv : ((s.memory_facts.filter
        (fun r => r.user_id == some u && r.fact_key == k)).length ≤ 1)) :
    ∃ r, (save_memory_fact k v t (some u) ss c s).memory_facts.filter
        (fun q => q.user_id == some u && q.fact_key == k) = [r] ∧
      r.fact_value = v ∧ r.confidence = c ∧ r.updated_at = s.clock ∧
      (save_memory_fact k v t (some u) ss c s).clock = s.clock + 1 := by
  unfold save_memory_fact factConflicts
  by_cases hc : s.memory_facts.any (fun r => r.user_id == some u && r.fact_key == k) = true
  · rw [if_pos hc]
    have hmap := filter_map_cond s.memory_facts
      (fun r => r.user_id == some u && r.fact_key == k)
      (fun r => { r with fact_value := v, confidence := c, updated_at := s.clock })
      (fun r => rfl)
    have hne : s.memory_facts.filter
        (fun r => r.user_id == some u && r.fact_key == k) ≠ [] := by
      intro hnil
      rcases List.any_eq_true.mp hc with ⟨r, hr, hpr⟩
      exact (List.filter_eq_nil_iff.mp hnil) r hr hpr
    obtain ⟨r0, hr0⟩ : ∃ r0, s.memory_facts.filter
        (fun r => r.user_id == some u && r.fact_key == k) = [r0] := by
      cases hl : s.memory_facts.filter
          (fun r => r.user_id == some u && r.fact_key == k) with
      | nil => exact absurd hl hne
      | cons a rest =>
        cases rest with
        | nil => exact ⟨a, rfl⟩
        | cons b rest2 =>
          rw [hl] at hinv
          simp at hinv
    have heq : ((s.memory_facts.map (fun r =>
        if r.user_id == some u && r.fact_key == k then
          { r with fact_value := v, confidence := c, updated_at := s.clock }
        else r)).filter (fun q => q.user_id == some u && q.fact_key == k)) =
        [{ r0 with fact_value := v, confidence := c, updated_at := s.clock }] := by
      rw [hmap, hr0]
      rfl
    exact ⟨_, heq, rfl, rfl, rfl, rfl⟩
  · rw [if_neg hc]
    have hcf : s.memory_facts.any (fun r => r.user_id == some u && r.fact_key == k) = false := by
      cases hv : s.memory_facts.any (fun r => r.user_id == some u && r.fact_key == k)
      · rfl
      · exact absurd hv hc
    have hnil : s.memory_facts.filter
        (fun r => r.user_id == some u && r.fact_key == k) = [] := by
      rw [List.filter_eq_nil_iff]
      intro a ha hpa
      exact absurd hpa (List.any_eq_false.mp hcf a ha)
    have heq : ((s.memory_facts ++
        [{ id := s.nextFactId, user_id := some u, fact_type := t, fact_key := k,
           fact_value := v, confidence := c, created_at := s.clock,
           updated_at := s.clock, source_session := ss : FactRow }]).filter
          (fun q => q.user_id == some u && q.fact_key == k)) =
        [{ id := s.nextFactId, user_id := some u, fact_type := t, fact_key := k,
           fact_value := v, confidence := c, created_at := s.clock,
           updated_at := s.clock, source_session := ss : FactRow }] := by
      rw [List.filter_append, hnil]
      simp [List.filter_cons]
    exact ⟨_, heq, rfl, rfl, rfl, rfl⟩

/-- C5 counterexample: with a NULL `user_id` (the default) the
`UNIQUE(user_id, fact_key)` index never fires, because SQLite treats
NULLs as distinct; two calls of `save_memory_fact` with the same key
leave **two** rows for the `(NULL, "k")` pair instead of upserting. -/
theorem null_user_fact_duplicates :
    ((save_memory_fact "k" "v2" "general" none none 1
        (save_memory_fact "k" "v1" "general" none none 1 emptyMem)).memory_facts.filter
      (fun r => r.user_id == (none : Option String) && r.fact_key == "k")).length = 2 := by
  rfl

/-- C5 (amended): for a **non-NULL** `user_id` the upsert contract
holds — if the store has at most one row for the `(user, key)` pair,
then after each call exactly one row carries the pair; after the second
call it holds the second value and confidence, and its `updated_at`
stamp is strictly newer than the first write. -/
theorem save_memory_fact_upserts (u k v1 v2 t1 t2 : String) (ss1 ss2 : Option String)
    (c1 c2 : Rat) (s : MemState)
    (hinv : ((s.memory_facts.filter
        (fun r => r.user_id == some u && r.fact_key == k)).length ≤ 1)) :
    ∃ r1 r2,
      ((save_memory_fact k v1 t1 (some u) ss1 c1 s).memory_facts.filter
        (fun q => q.user_id == some u && q.fact_key == k)) = [r1] ∧
      ((save_memory_fact k v2 t2 (some u) ss2 c2
          (save_memory_fact k v1 t1 (some u) ss1 c1 s)).memory_facts.filter
        (fun q => q.user_id == some u && q.fact_key == k)) = [r2] ∧
      r2.fact_value = v2 ∧ r2.confidence = c2 ∧ r1.updated_at < r2.updated_at := by
  obtain ⟨r1, h1, hv1, hc1, hu1, hck1⟩ := save_fact_filter u k v1 t1 ss1 c1 s hinv
  have hinv1 : (((save_memory_fact k v1 t1 (some u) ss1 c1 s).memory_facts.filter
      (fun q => q.user_id == some u && q.fact_key == k)).length ≤ 1) := by
    rw [h1]
    simp
  obtain ⟨r2, h2, hv2, hc2, hu2, hck2⟩ :=
    save_fact_filter u k v2 t2 ss2 c2 (save_memory_fact k v1 t1 (some u) ss1 c1 s) hinv1
  refine ⟨r1, r2, h1, h2, hv2, hc2, ?_⟩
  rw [hu1, hu2, hck1]
  omega

/-- Witness for (amended) C5 on the empty store. -/
theorem save_memory_fact_upserts_witness :
    ∃ r1 r2,
      ((save_memory_fact "k" "v1" "general" (some "u") none 1 emptyMem).memory_facts.filter
        (fun q => q.user_id == some "u" && q.fact_key == "k")) = [r1] ∧
      ((save_memory_fact "k" "v2" "general" (some "u") none (1 / 2)
          (save_memory_fact "k" "v1" "general" (some "u") none 1 emptyMem)).memory_facts.filter
        (fun q => q.user_id == some "u" && q.fact_key == "k")) = [r2] ∧
      r2.fact_value = "v2" ∧ r2.confidence = (1 / 2 : Rat) ∧ r1.updated_at < r2.updated_at :=
  save_memory_fact_upserts "u" "k" "v1" "v2" "general" "general" none none 1 (1 / 2)
    emptyMem (by decide)

/-- `sumLen` over cons. -/
theorem sumLen_cons (p : String) (ps : List String) :
    sumLen (p :: ps) = p.length + sumLen ps := by
  simp [sumLen]

/-- The running total of the selection loop stays within the budget
(unless nothing is selected at all). -/
theorem selectTurns_sum (mc : Nat) :
    ∀ (ps : List String) (t : Nat),
      t + sumLen (selectTurns mc t ps) ≤ mc ∨ selectTurns mc t ps = [] := by
  intro ps
  induction ps with
  | nil => intro t; right; rfl
  | cons p ps ih =>
    intro t
    unfold selectTurns
    by_cases h : mc < t + p.length
    · right; simp [h]
    · left
      simp only [h, if_false]
      rw [sumLen_cons]
      rcases ih (t + p.length) with h2 | h2
      · omega
      · rw [h2]
        simp only [sumLen, List.map_nil, List.sum_nil]
        omega

/-- The selection loop takes a prefix and stops at the first turn whose
rendering would push the running total past the budget. -/
theorem selectTurns_prefix_overflow (mc : Nat) :
    ∀ (ps : List String) (t : Nat),
      selectTurns mc t ps = ps ∨
      ∃ e rest, ps = selectTurns mc t ps ++ e :: rest ∧
        mc < t + sumLen (selectTurns mc t ps) + e.length := by
  intro ps
  induction ps with
  | nil => intro t; left; rfl
  | cons p ps ih =>
    intro t
    unfold selectTurns
    by_cases h : mc < t + p.length
    · right
      refine ⟨p, ps, ?_, ?_⟩
      · simp [h]
      · simp only [h, if_true]
        simp [sumLen]
        omega
    · simp only [h, if_false]
      rcases ih (t + p.length) with h2 | h2
      · left; rw [h2]
      · right
        rcases h2 with ⟨e, rest, he, hlt⟩
        refine ⟨e, rest, ?_, ?_⟩
        · rw [List.cons_append, ← he]
        · rw [sumLen_cons]
          omega

/-- Length of a newline-join. -/
theorem joinSep_nl_length :
    ∀ (l : List String), l ≠ [] →
      (joinSep "\n" l).length = sumLen l + (l.length - 1) := by
  intro l
  induction l with
  | nil => intro h; exact absurd rfl h
  | cons a l ih =>
    intro _
    cases l with
    | nil => simp [joinSep, sumLen]
    | cons b l2 =>
      have hne : b :: l2 ≠ [] := by simp
      show (a ++ "\n" ++ joinSep "\n" (b :: l2)).length = _
      rw [String.length_append, String.length_append, ih hne]
      have h1 : ("\n").length = 1 := rfl
      simp [sumLen]
      omega

/-- The stored history window never exceeds `max_turns` turns. -/
theorem get_conversation_history_length (sid : String) (mt : Nat) (s : MemState) :
    (get_conversation_history sid mt s).length ≤ mt := by
  unfold get_conversation_history
  rw [List.length_reverse]
  exact (List.length_take_le _ _).trans (le_refl _)

/-- C6 (amended): the selection loop of `get_recent_context` keeps the
summed length of the included turn renderings within `max_chars`, drops
an overflowing turn entirely and stops at the first overflow — but the
returned string additionally carries the 23-character
`"Previous conversation:\n"` header and one newline joiner per extra
turn, which are *not* counted against the budget, so the result is only
bounded by `max_chars + max_turns + 23` (and can exceed `max_chars`). -/
theorem recent_context_truncation (sid : String) (mt mc : Nat) (s : MemState) :
    sumLen (selectTurns mc 0 ((get_conversation_history sid mt s).map renderTurn)) ≤ mc ∧
    (selectTurns mc 0 ((get_conversation_history sid mt s).map renderTurn) =
        (get_conversation_history sid mt s).map renderTurn ∨
      ∃ e rest, (get_conversation_history sid mt s).map renderTurn =
          selectTurns mc 0 ((get_conversation_history sid mt s).map renderTurn) ++
            e :: rest ∧
        mc < sumLen (selectTurns mc 0
            ((get_conversation_history sid mt s).map renderTurn)) + e.length) ∧
    (get_recent_context sid mt mc s).length ≤ 23 + mc + mt := by
  have hsum : sumLen (selectTurns mc 0
      ((get_conversation_history sid mt s).map renderTurn)) ≤ mc := by
    rcases selectTurns_sum mc ((get_conversation_history sid mt s).map renderTurn) 0 with h | h
    · omega
    · rw [h]
      simp [sumLen]
  have hpre := selectTurns_prefix_overflow mc
    ((get_conversation_history sid mt s).map renderTurn) 0
  refine ⟨hsum, ?_, ?_⟩
  · rcases hpre with h | ⟨e, rest, he, hlt⟩
    · exact Or.inl h
    · exact Or.inr ⟨e, rest, he, by omega⟩
  · unfold get_recent_context
    by_cases hh : (get_conversation_history sid mt s).isEmpty
    · simp [hh]
    · simp only [hh, Bool.false_eq_true, if_false]
      by_cases hp : (selectTurns mc 0
          ((get_conversation_history sid mt s).map renderTurn)).isEmpty
      · simp [hp]
      · simp only [hp, Bool.false_eq_true, if_false]
        have hne : selectTurns mc 0
            ((get_conversation_history sid mt s).map renderTurn) ≠ [] := by
          intro hnil
          rw [hnil] at hp
          exact hp rfl
        rw [String.length_append, joinSep_nl_length _ hne]
        have hplen : (selectTurns mc 0
            ((get_conversation_history sid mt s).map renderTurn)).length ≤ mt := by
          have hlist : (selectTurns mc 0
              ((get_conversation_history sid mt s).map renderTurn)).length ≤
              ((get_conversation_history sid mt s).map renderTurn).length := by
            rcases hpre with h | ⟨e, rest, he, _⟩
            · rw [h]
            · have hl := congrArg List.length he
              rw [List.length_append, List.length_cons] at hl
              omega
          rw [List.length_map] at hlist
          exact hlist.trans (get_conversation_history_length sid mt s)
        have hhead : ("Previous conversation:\n").length = 23 := rfl
        omega

/-- C6 counterexample to the claim as stated: a single stored turn with
empty texts renders as 12 characters, which fits a 12-character budget,
but the uncounted header makes the returned string 35 characters long —
longer than `max_chars = 12`. -/
theorem recent_context_exceeds_budget :
    (get_recent_context "s" 5 12 exMemOneTurn).length = 35 ∧
    12 < (get_recent_context "s" 5 12 exMemOneTurn).length := by
  have h : (get_recent_context "s" 5 12 exMemOneTurn).length = 35 := rfl
  exact ⟨h, by rw [h]; omega⟩

/-- C8 (amended): no tool raises past the registry boundary — every
failure comes back as a string — and the failure shapes are
`ERROR(read_file)` / `ERROR(write_file)` for the file tools and
`ERROR(mcp:server,tool)` for the MCP bridge, but `EXEC_ERROR: ...`
(which does not name the tool) for `run_python`. -/
theorem failing_tools_return_text (w : ToolWorld) (e : String) (p c cd tn ag : Json)
    (u : String) :
    (w.openRead p = Except.error e → tool_read_file w p = "ERROR(read_file): " ++ e) ∧
    (w.openWrite p c = Except.error e → tool_write_file w p c = "ERROR(write_file): " ++ e) ∧
    (w.execPy cd = Except.error e → tool_run_python w cd = "EXEC_ERROR: " ++ e) ∧
    (w.httpPost (rstripSlashes u ++ "/invoke") tn ag = Except.error e →
      call_mcp_tool w u tn ag = "ERROR(mcp:" ++ u ++ "," ++ pyStrJ tn ++ "): " ++ e) := by
  refine ⟨?_, ?_, ?_, ?_⟩ <;> intro h <;>
    simp [tool_read_file, tool_write_file, tool_run_python, call_mcp_tool, h]

/-- Witness for (amended) C8 on the all-failing world. -/
theorem failing_tools_return_text_witness :
    tool_read_file failWorld (Json.str "f") = "ERROR(read_file): boom" ∧
    tool_run_python failWorld (Json.str "1/0") = "EXEC_ERROR: division by zero" :=
  ⟨(failing_tools_return_text failWorld "boom" (Json.str "f") Json.null (Json.str "1/0")
      Json.null Json.null "x").1 rfl,
   (failing_tools_return_text failWorld "division by zero" (Json.str "f") Json.null
      (Json.str "1/0") Json.null Json.null "x").2.2.1 rfl⟩

/-- C8 counterexample to the claim as stated: a failing `run_python`
invocation through the registry returns `EXEC_ERROR: <detail>`, which
does not carry the `ERROR(tool_name): <detail>` shape and does not name
the failing tool. -/
theorem run_python_error_shape :
    callTool failWorld "run_python" [("code", Json.str "1/0")] =
      Except.ok "EXEC_ERROR: division by zero" ∧
    "EXEC_ERROR: division by zero".toList.take 6 ≠ "ERROR(".toList := by
  exact ⟨rfl, by decide⟩

/-- Every registered tool entry accepts an arbitrary keyword dict: the
`lambda **kw` wrappers bind their underlying callables with exactly the
declared parameters, filled from `kw.get` defaults, so the call binding
never fails. -/
theorem callTool_ok (w : ToolWorld) (name : String) (h : name ∈ toolNames) (kw : PyDict) :
    ∃ out, callTool w name kw = Except.ok out := by
  simp only [toolNames, List.mem_cons, List.not_mem_nil, or_false] at h
  rcases h with h | h | h | h | h
  all_goals subst h
  all_goals exact ⟨_, rfl⟩

/-- C9: malformed model-supplied arguments never break dispatch: a
`null` `args` field is replaced by the empty dict before use
(`result.get("args", {}) or {}`), and every `TOOLS` entry accepts any
keyword dict — substituting defaults for missing keys and ignoring
extra ones — so invoking a registered tool never raises a missing- or
unexpected-argument error. -/
theorem tool_dispatch_total (w : ToolWorld) :
    (∀ rec : PyDict, dictGetD rec "args" (Json.obj []) = Json.null →
      recArgs rec = Json.obj []) ∧
    (∀ name, name ∈ toolNames → ∀ kw : PyDict,
      ∃ out, callTool w name kw = Except.ok out) := by
  constructor
  · intro rec h
    unfold recArgs
    rw [h]
    rfl
  · intro name h kw
    exact callTool_ok w name h kw

/-- Witness for C9: a record whose `args` is JSON `null`, and a call of
`read_file` with only a bogus extra key. -/
theorem tool_dispatch_total_witness :
    recArgs [("args", Json.null)] = Json.obj [] ∧
    ∃ out, callTool exampleWorld "read_file" [("bogus", Json.num "1")] = Except.ok out :=
  ⟨(tool_dispatch_total exampleWorld).1 [("args", Json.null)] rfl,
   (tool_dispatch_total exampleWorld).2 "read_file" (by decide) [("bogus", Json.num "1")]⟩

/-- C10: with `user_id = None` the user filter is skipped entirely:
`get_memory_facts` returns all stored facts (of every user) sorted by
confidence descending then `updated_at` descending, and
`format_memory_facts` renders one line per fact, returning the empty
string only when the store holds no facts at all. -/
theorem facts_none_user_returns_all (s : MemState) :
    (get_memory_facts none none s).Perm s.memory_facts ∧
    List.Sorted factOrderRel (get_memory_facts none none s) ∧
    (get_memory_facts none none s).length = s.memory_facts.length ∧
    format_memory_facts none s =
      (if s.memory_facts.isEmpty then ""
       else "Known facts about user:\n" ++
         joinSep "\n" ((get_memory_facts none none s).map factLine)) ∧
    (s.memory_facts ≠ [] → format_memory_facts none s ≠ "") := by
  have hperm : (get_memory_facts none none s).Perm s.memory_facts :=
    List.perm_insertionSort factOrderRel s.memory_facts
  have hlen := hperm.length_eq
  have hie : (get_memory_facts none none s).isEmpty = s.memory_facts.isEmpty := by
    cases h1 : get_memory_facts none none s with
    | nil =>
      rw [h1] at hlen
      have h2 : s.memory_facts = [] := List.length_eq_zero.mp hlen.symm
      rw [h2]
    | cons a l =>
      cases h2 : s.memory_facts with
      | nil =>
        rw [h1, h2] at hlen
        simp at hlen
      | cons b m => rfl
  have heq : format_memory_facts none s =
      (if s.memory_facts.isEmpty then ""
       else "Known facts about user:\n" ++
         joinSep "\n" ((get_memory_facts none none s).map factLine)) := by
    unfold format_memory_facts
    show (if (get_memory_facts none none s).isEmpty = true then ""
       else "Known facts about user:\n" ++
         joinSep "\n" ((get_memory_facts none none s).map factLine)) =
      (if s.memory_facts.isEmpty = true then ""
       else "Known facts about user:\n" ++
         joinSep "\n" ((get_memory_facts none none s).map factLine))
    rw [hie]
  refine ⟨hperm, List.sorted_insertionSort factOrderRel s.memory_facts, hlen, heq, ?_⟩
  intro hne hfmt
  have hmfie : s.memory_facts.isEmpty = false := by
    cases h2 : s.memory_facts with
    | nil => exact absurd h2 hne
    | cons b m => rfl
  rw [heq, hmfie] at hfmt
  simp only [Bool.false_eq_true, if_false] at hfmt
  have hl := congrArg String.length hfmt
  rw [String.length_append] at hl
  have h24 : ("Known facts about user:\n").length = 24 := rfl
  have h0 : ("" : String).length = 0 := rfl
  omega

/-- Witness for C10 on a store holding facts of two different users. -/
theorem facts_none_user_returns_all_witness :
    format_memory_facts none exMemFacts ≠ "" ∧
    (get_memory_facts none none exMemFacts).length = 2 :=
  ⟨(facts_none_user_returns_all exMemFacts).2.2.2.2 (by decide),
   by rw [(facts_none_user_returns_all exMemFacts).2.2.1]; rfl⟩

/-- Inversion for `asOptStr?`: `some none` forces JSON `null`. -/
theorem asOptStr?_eq_some_none (x : Json) (h : asOptStr? x = some none) : x = Json.null := by
  cases x
  case null => rfl
  all_goals simp [asOptStr?] at h

/-- Inversion for `asOptStr?`: `some (some s)` forces the string `s`. -/
theorem asOptStr?_eq_some_some (x : Json) (s : String) (h : asOptStr? x = some (some s)) :
    x = Json.str s := by
  cases x <;> simp [asOptStr?] at h
  rw [h]

/-- `mkEvent` succeeds on well-typed fields. -/
theorem mkEvent_str (step : Nat) (agent a th : String) (tool target : Json)
    (t? tg? : Option String) (ht : asOptStr? tool = some t?)
    (hg : asOptStr? target = some tg?) :
    mkEvent step agent (Json.str a) tool target (Json.str th) =
      Except.ok { step := step, agent := agent, action := a, tool := t?,
                  target_agent := tg?, thought := th } := by
  unfold mkEvent
  rw [ht, hg]

/-- A `use_tool` step whose tool name is a string that is falsy or not
registered escalates to the orchestrator with the corrective query, and
raises nothing. -/
theorem orchStep_unknown_tool (w : ToolWorld) (ui sid : String) (uid pers : Option String)
    (stepIdx : Nat) (st : LoopSt) (rec : PyDict) (t th : String) (tg : Option String)
    (hact : dictGetD rec "action" (Json.str "final") = Json.str "use_tool")
    (hth : dictGetD rec "thought" (Json.str "") = Json.str th)
    (htool : dictGetD rec "tool" Json.null = Json.str t)
    (htg : asOptStr? (dictGetD rec "target_agent" Json.null) = some tg)
    (hunk : toolNames.contains t = false) :
    orchStep w ui sid uid pers rec stepIdx st = Except.ok (Sum.inl
      { st with
        events := st.events ++
          [{ step := stepIdx + 1, agent := st.current_agent, action := "use_tool",
             tool := some t, target_agent := tg, thought := th }],
        context_log := st.context_log ++ [stepRecord st.current_agent stepIdx rec],
        current_agent := "orchestrator",
        current_query := Json.str ("Unknown tool \x27" ++ t ++
          "\x27. Please provide a final answer with available information.") }) := by
  have hmemt : t ∉ toolNames := by simpa using hunk
  unfold orchStep
  simp only [hact, hth, htool, htg]
  rw [mkEvent_str (stepIdx + 1) st.current_agent "use_tool" th (Json.str t)
    (dictGetD rec "target_agent" Json.null) (some t) tg rfl htg]
  have hf : pyEq (Json.str "use_tool") "final" = false := rfl
  have hu : pyEq (Json.str "use_tool") "use_tool" = true := rfl
  by_cases hemp : t.isEmpty
  · have hpt : pyTruthy (Json.str t) = false := by
      simp [pyTruthy, hemp]
    simp [hf, hu, hpt, unknownToolNext, pyStrJ]
  · have hpt : pyTruthy (Json.str t) = true := by
      simp [pyTruthy, Bool.eq_false_iff.mpr hemp]
    simp [hf, hu, hpt, pyMem, jsonHashable, hmemt, unknownToolNext, pyStrJ]

/-- A `delegate` step whose target agent is a string that is falsy or
not registered escalates to the orchestrator with the corrective query,
and raises nothing. -/
theorem orchStep_unknown_agent (w : ToolWorld) (ui sid : String) (uid pers : Option String)
    (stepIdx : Nat) (st : LoopSt) (rec : PyDict) (g th : String) (tl : Option String)
    (hact : dictGetD rec "action" (Json.str "final") = Json.str "delegate")
    (hth : dictGetD rec "thought" (Json.str "") = Json.str th)
    (htl : asOptStr? (dictGetD rec "tool" Json.null) = some tl)
    (htg : dictGetD rec "target_agent" Json.null = Json.str g)
    (hunk : agentNames.contains g = false) :
    orchStep w ui sid uid pers rec stepIdx st = Except.ok (Sum.inl
      { st with
        events := st.events ++
          [{ step := stepIdx + 1, agent := st.current_agent, action := "delegate",
             tool := tl, target_agent := some g, thought := th }],
        context_log := st.context_log ++ [stepRecord st.current_agent stepIdx rec],
        current_agent := "orchestrator",
        current_query := Json.str ("Unknown agent \x27" ++ g ++
          "\x27. Please handle the task yourself or use available tools.") }) := by
  have hmemg : g ∉ agentNames := by simpa using hunk
  unfold orchStep
  simp only [hact, hth, htg, htl]
  rw [mkEvent_str (stepIdx + 1) st.current_agent "delegate" th
    (dictGetD rec "tool" Json.null) (Json.str g) tl (some g) htl rfl]
  have hf : pyEq (Json.str "delegate") "final" = false := rfl
  have hu : pyEq (Json.str "delegate") "use_tool" = false := rfl
  have hd : pyEq (Json.str "delegate") "delegate" = true := rfl
  by_cases hemp : g.isEmpty
  · have hpt : pyTruthy (Json.str g) = false := by
      simp [pyTruthy, hemp]
    simp [hf, hu, hd, hpt, unknownAgentNext, pyStrJ]
  · have hpt : pyTruthy (Json.str g) = true := by
      simp [pyTruthy, Bool.eq_false_iff.mpr hemp]
    simp [hf, hu, hd, hpt, pyMem, jsonHashable, hmemg, unknownAgentNext, pyStrJ]

/-- C3: a loop step whose decoded action references an unknown
capability — `use_tool` with a tool name absent from the `TOOLS`
registry, or `delegate` with a target absent from the `AGENTS`
registry — raises no exception; the next loop state has the
coordinating agent (`"orchestrator"`) active, and the next query is the
corrective instruction naming the unknown tool (demanding a final
answer from available information) or the unknown agent. -/
theorem unknown_capability_escalates (w : ToolWorld) (ui sid raw : String)
    (uid pers : Option String) (stepIdx : Nat) (st : LoopSt) (rec : PyDict)
    (th : String) (_hdec : run_agent_decode raw = Except.ok rec)
    (hth : dictGetD rec "thought" (Json.str "") = Json.str th) :
    (∀ t tg, dictGetD rec "action" (Json.str "final") = Json.str "use_tool" →
      dictGetD rec "tool" Json.null = Json.str t →
      asOptStr? (dictGetD rec "target_agent" Json.null) = some tg →
      toolNames.contains t = false →
      ∃ st2, orchStep w ui sid uid pers rec stepIdx st = Except.ok (Sum.inl st2) ∧
        st2.current_agent = "orchestrator" ∧
        st2.current_query = Json.str ("Unknown tool \x27" ++ t ++
          "\x27. Please provide a final answer with available information.") ∧
        st2.mem = st.mem ∧
        st2.events.length = st.events.length + 1) ∧
    (∀ g tl, dictGetD rec "action" (Json.str "final") = Json.str "delegate" →
      dictGetD rec "target_agent" Json.null = Json.str g →
      asOptStr? (dictGetD rec "tool" Json.null) = some tl →
      agentNames.contains g = false →
      ∃ st2, orchStep w ui sid uid pers rec stepIdx st = Except.ok (Sum.inl st2) ∧
        st2.current_agent = "orchestrator" ∧
        st2.current_query = Json.str ("Unknown agent \x27" ++ g ++
          "\x27. Please handle the task yourself or use available tools.") ∧
        st2.mem = st.mem ∧
        st2.events.length = st.events.length + 1) := by
  constructor
  · intro t tg hact htool htg hunk
    refine ⟨_, orchStep_unknown_tool w ui sid uid pers stepIdx st rec t th tg
      hact hth htool htg hunk, rfl, rfl, rfl, ?_⟩
    simp
  · intro g tl hact htg htl hunk
    refine ⟨_, orchStep_unknown_agent w ui sid uid pers stepIdx st rec g th tl
      hact hth htl htg hunk, rfl, rfl, rfl, ?_⟩
    simp

/-- Witness for C3: both corrective escalations at concrete decoded
records (an unregistered tool `nope`, an unregistered agent `ghost`)
over the concrete loop state. -/
theorem unknown_capability_escalates_witness :
    (∃ st2, orchStep exampleWorld "q" "s0" none none
        [("action", Json.str "use_tool"), ("tool", Json.str "nope"),
         ("thought", Json.str ""), ("target_agent", Json.null),
         ("args", Json.obj []), ("answer", Json.str "")] 0 exLoopSt =
        Except.ok (Sum.inl st2) ∧
      st2.current_agent = "orchestrator" ∧
      st2.current_query = Json.str ("Unknown tool \x27nope" ++
        "\x27. Please provide a final answer with available information.") ∧
      st2.mem = exLoopSt.mem ∧
      st2.events.length = exLoopSt.events.length + 1) ∧
    (∃ st2, orchStep exampleWorld "q" "s0" none none
        [("action", Json.str "delegate"), ("target_agent", Json.str "ghost"),
         ("thought", Json.str ""), ("tool", Json.null),
         ("args", Json.obj []), ("answer", Json.str "")] 0 exLoopSt =
        Except.ok (Sum.inl st2) ∧
      st2.current_agent = "orchestrator" ∧
      st2.current_query = Json.str ("Unknown agent \x27ghost" ++
        "\x27. Please handle the task yourself or use available tools.") ∧
      st2.mem = exLoopSt.mem ∧
      st2.events.length = exLoopSt.events.length + 1) :=
  ⟨(unknown_capability_escalates exampleWorld "q" "s0"
      "\x7b\"action\": \"use_tool\", \"tool\": \"nope\"\x7d" none none 0 exLoopSt
      [("action", Json.str "use_tool"), ("tool", Json.str "nope"),
       ("thought", Json.str ""), ("target_agent", Json.null),
       ("args", Json.obj []), ("answer", Json.str "")] "" rfl rfl).1
    "nope" none rfl rfl rfl rfl,
   (unknown_capability_escalates exampleWorld "q" "s0"
      "\x7b\"action\": \"delegate\", \"target_agent\": \"ghost\"\x7d" none none 0 exLoopSt
      [("action", Json.str "delegate"), ("target_agent", Json.str "ghost"),
       ("thought", Json.str ""), ("tool", Json.null),
       ("args", Json.obj []), ("answer", Json.str "")] "" rfl rfl).2
    "ghost" none rfl rfl rfl rfl⟩

/-- Shapes of the event-bound fields extracted from `eventFieldsOk`. -/
theorem eventFieldsOk_shapes (rec : PyDict) (h : eventFieldsOk rec = true) :
    (∃ a, dictGetD rec "action" (Json.str "final") = Json.str a) ∧
    (∃ th, dictGetD rec "thought" (Json.str "") = Json.str th) ∧
    (∃ t?, asOptStr? (dictGetD rec "tool" Json.null) = some t?) ∧
    (∃ tg, asOptStr? (dictGetD rec "target_agent" Json.null) = some tg) := by
  unfold eventFieldsOk at h
  rw [Bool.and_eq_true, Bool.and_eq_true, Bool.and_eq_true] at h
  obtain ⟨⟨⟨h1, h2⟩, h3⟩, h4⟩ := h
  refine ⟨?_, ?_, Option.isSome_iff_exists.mp h3, Option.isSome_iff_exists.mp h4⟩
  · cases hx : dictGetD rec "action" (Json.str "final") <;> rw [hx] at h1
    all_goals first
      | exact ⟨_, rfl⟩
      | simp at h1
  · cases hx : dictGetD rec "thought" (Json.str "") <;> rw [hx] at h2
    all_goals first
      | exact ⟨_, rfl⟩
      | simp at h2

/-- A well-typed decoded record whose action is not `"final"` lets the
loop iteration complete without raising: the step returns the next loop
state, leaves the memory store untouched, and records exactly one more
event. -/
theorem orchStep_nonfinal (w : ToolWorld) (ui sid : String) (uid pers : Option String)
    (rec : PyDict) (stepIdx : Nat) (st : LoopSt)
    (hok : stepOk rec = true)
    (hnf : pyEq (recAction rec) "final" = false) :
    ∃ st2, orchStep w ui sid uid pers rec stepIdx st = Except.ok (Sum.inl st2) ∧
      st2.mem = st.mem ∧ st2.events.length = st.events.length + 1 := by
  have hev : eventFieldsOk rec = true := by
    unfold stepOk at hok
    exact (Bool.and_eq_true _ _ |>.mp hok).1
  have hdp : dispatchOk rec = true := by
    unfold stepOk at hok
    exact (Bool.and_eq_true _ _ |>.mp hok).2
  obtain ⟨⟨a, ha⟩, ⟨th, hth⟩, ⟨t?, htl⟩, ⟨tg, htg⟩⟩ := eventFieldsOk_shapes rec hev
  have hf : pyEq (Json.str a) "final" = false := by
    unfold recAction at hnf
    rw [ha] at hnf
    exact hnf
  unfold orchStep
  simp only [ha, hth]
  by_cases hus : a = "use_tool"
  · subst hus
    cases t? with
    | none =>
      have htn : dictGetD rec "tool" Json.null = Json.null :=
        asOptStr?_eq_some_none _ htl
      simp only [htn]
      rw [mkEvent_str (stepIdx + 1) st.current_agent "use_tool" th Json.null
        (dictGetD rec "target_agent" Json.null) none tg rfl htg]
      exact ⟨_, rfl, rfl, by simp [unknownToolNext]⟩
    | some t =>
      have htn : dictGetD rec "tool" Json.null = Json.str t :=
        asOptStr?_eq_some_some _ t htl
      simp only [htn]
      rw [mkEvent_str (stepIdx + 1) st.current_agent "use_tool" th (Json.str t)
        (dictGetD rec "target_agent" Json.null) (some t) tg rfl htg]
      by_cases hemp : t.isEmpty
      · have hpt : pyTruthy (Json.str t) = false := by simp [pyTruthy, hemp]
        simp only [hpt, Bool.false_eq_true, if_false]
        exact ⟨_, rfl, rfl, by simp [unknownToolNext]⟩
      · have hpt : pyTruthy (Json.str t) = true := by
          simp [pyTruthy, Bool.eq_false_iff.mpr hemp]
        have hpm : pyMem (Json.str t) toolNames =
            Except.ok (toolNames.contains t) := rfl
        simp only [hpt, if_true, hpm]
        cases hct : toolNames.contains t with
        | false => exact ⟨_, rfl, rfl, by simp [unknownToolNext]⟩
        | true =>
          have hargs : ∃ kwargs, recArgs rec = Json.obj kwargs := by
            unfold dispatchOk recAction at hdp
            rw [ha, htn] at hdp
            have hctm : t ∈ toolNames := by simpa using hct
            cases hx : recArgs rec <;> rw [hx] at hdp
            all_goals first
              | exact ⟨_, rfl⟩
              | simp [pyEq, hctm] at hdp
          obtain ⟨kwargs, hkw⟩ := hargs
          have hkw2 : pyOr (dictGetD rec "args" (Json.obj [])) (Json.obj []) =
              Json.obj kwargs := hkw
          obtain ⟨out, hout⟩ := callTool_ok w t (by simpa using hct) kwargs
          simp only [hkw2, hout]
          exact ⟨_, rfl, rfl, by simp⟩
  · by_cases hdel : a = "delegate"
    · subst hdel
      cases tg with
      | none =>
        have htn : dictGetD rec "target_agent" Json.null = Json.null :=
          asOptStr?_eq_some_none _ htg
        simp only [htn]
        rw [mkEvent_str (stepIdx + 1) st.current_agent "delegate" th
          (dictGetD rec "tool" Json.null) Json.null t? none htl rfl]
        exact ⟨_, rfl, rfl, by simp [unknownAgentNext]⟩
      | some g =>
        have htn : dictGetD rec "target_agent" Json.null = Json.str g :=
          asOptStr?_eq_some_some _ g htg
        simp only [htn]
        rw [mkEvent_str (stepIdx + 1) st.current_agent "delegate" th
          (dictGetD rec "tool" Json.null) (Json.str g) t? (some g) htl rfl]
        by_cases hemp : g.isEmpty
        · have hpt : pyTruthy (Json.str g) = false := by simp [pyTruthy, hemp]
          simp only [hpt, Bool.false_eq_true, if_false]
          exact ⟨_, rfl, rfl, by simp [unknownAgentNext]⟩
        · have hpt : pyTruthy (Json.str g) = true := by
            simp [pyTruthy, Bool.eq_false_iff.mpr hemp]
          have hpm : pyMem (Json.str g) agentNames =
              Except.ok (agentNames.contains g) := rfl
          simp only [hpt, if_true, hpm]
          cases hct : agentNames.contains g with
          | false => exact ⟨_, rfl, rfl, by simp [unknownAgentNext]⟩
          | true =>
            have hargs : ∃ kwargs, recArgs rec = Json.obj kwargs := by
              unfold dispatchOk recAction at hdp
              rw [ha, htn] at hdp
              have hctm : g ∈ agentNames := by simpa using hct
              cases hx : recArgs rec <;> rw [hx] at hdp
              all_goals first
                | exact ⟨_, rfl⟩
                | simp [pyEq, hctm] at hdp
            obtain ⟨kwargs, hkw⟩ := hargs
            have hkw2 : pyOr (dictGetD rec "args" (Json.obj [])) (Json.obj []) =
                Json.obj kwargs := hkw
            simp only [hkw2]
            exact ⟨_, rfl, rfl, by simp⟩
    · rcases htl2 : t? with _ | t
      all_goals rw [htl2] at htl
      · have htn : dictGetD rec "tool" Json.null = Json.null :=
          asOptStr?_eq_some_none _ htl
        simp only [htn]
        rw [mkEvent_str (stepIdx + 1) st.current_agent a th Json.null
          (dictGetD rec "target_agent" Json.null) none tg rfl htg]
        have hu : pyEq (Json.str a) "use_tool" = false := by simp [pyEq, hus]
        have hd : pyEq (Json.str a) "delegate" = false := by simp [pyEq, hdel]
        simp only [hf, hu, hd, Bool.false_eq_true, if_false]
        exact ⟨_, rfl, rfl, by simp⟩
      · have htn : dictGetD rec "tool" Json.null = Json.str t :=
          asOptStr?_eq_some_some _ t htl
        simp only [htn]
        rw [mkEvent_str (stepIdx + 1) st.current_agent a th (Json.str t)
          (dictGetD rec "target_agent" Json.null) (some t) tg rfl htg]
        have hu : pyEq (Json.str a) "use_tool" = false := by simp [pyEq, hus]
        have hd : pyEq (Json.str a) "delegate" = false := by simp [pyEq, hdel]
        simp only [hf, hu, hd, Bool.false_eq_true, if_false]
        exact ⟨_, rfl, rfl, by simp⟩

/-- Running the loop with decoded records that never produce a `final`
action (and never raise) exhausts the budget: the sentinel answer comes
back as a normal result, exactly one conversation row is appended —
carrying the sentinel as `ai_response` and the turn input as
`user_message` — and one event was recorded per step. -/
theorem orchLoop_sentinel (w : ToolWorld) (recs : Nat → Except PyErr PyDict)
    (ui sid : String) (uid pers : Option String) (cu : Bool) :
    ∀ (fuel stepIdx : Nat) (st : LoopSt),
      (∀ i, i < fuel → ∃ rec, recs (stepIdx + i) = Except.ok rec ∧ stepOk rec = true ∧
        pyEq (recAction rec) "final" = false) →
      ∃ evs s' row,
        orchLoop w recs ui sid uid pers cu fuel stepIdx st =
          Except.ok ("[MAX STEPS REACHED - No final answer provided]", evs, sid, cu, s') ∧
        s'.conversations = st.mem.conversations ++ [row] ∧
        row.ai_response = "[MAX STEPS REACHED - No final answer provided]" ∧
        row.user_message = ui ∧
        evs.length = st.events.length + fuel := by
  intro fuel
  induction fuel with
  | zero =>
    intro stepIdx st _
    exact ⟨st.events, _, _, rfl, rfl, rfl, rfl, rfl⟩
  | succ n ih =>
    intro stepIdx st h
    obtain ⟨rec, hrec, hok, hnf⟩ := h 0 (by omega)
    rw [Nat.add_zero] at hrec
    obtain ⟨st2, hstep, hmem, hevlen⟩ :=
      orchStep_nonfinal w ui sid uid pers rec stepIdx st hok hnf
    obtain ⟨evs, s', row, hloop, hconv, hair, hum, hlen⟩ :=
      ih (stepIdx + 1) st2 (fun i hi => by
        obtain ⟨rec2, h1, h2, h3⟩ := h (i + 1) (by omega)
        refine ⟨rec2, ?_, h2, h3⟩
        rw [show stepIdx + 1 + i = stepIdx + (i + 1) by omega]
        exact h1)
    refine ⟨evs, s', row, ?_, ?_, hair, hum, ?_⟩
    · simp only [orchLoop, hrec, hstep]
      exact hloop
    · rw [hconv, hmem]
    · rw [hlen, hevlen]
      omega

/-- `orchestrate` reduces to the loop over the state assembled from the
looked-up (or created) session. -/
theorem orchestrate_eq_loop (hash : String → String) (w : ToolWorld)
    (llmRaw : Nat → String) (ui : String) (ms : Nat) (sysi : String)
    (sid? uid pers : Option String) (s : MemState) (sid : String) (s1 : MemState)
    (hp : get_or_create_session hash sid? uid s = Except.ok (sid, s1)) :
    ∃ (cu : Bool) (st : LoopSt),
      orchestrate hash w llmRaw ui ms sysi sid? uid pers s =
        orchLoop w (fun i => run_agent_decode (llmRaw i)) ui sid uid pers cu ms 0 st ∧
      st.mem = s1 ∧ st.events = [] := by
  refine ⟨?cu, ?st, ?heq, ?hm, ?hev⟩
  case heq =>
    unfold orchestrate
    rw [hp]
    exact rfl
  case hm => rfl
  case hev => rfl

/-- C2: a run of `orchestrate` that opens its session successfully and
whose decoded actions are well-typed, raise-free and never `"final"`
for `max_steps` steps returns the sentinel
`"[MAX STEPS REACHED - No final answer provided]"` as a normal result
(not an exception), records one event per step, and persists exactly one
conversation turn, whose `ai_response` is the sentinel and whose
`user_message` is the original user input. -/
theorem orchestrate_max_steps_sentinel (hash : String → String) (w : ToolWorld)
    (llmRaw : Nat → String) (ui : String) (ms : Nat) (sysi : String)
    (sid? uid pers : Option String) (s : MemState)
    (hsess : ∃ p, get_or_create_session hash sid? uid s = Except.ok p)
    (hsteps : ∀ i, i < ms → ∃ rec, run_agent_decode (llmRaw i) = Except.ok rec ∧
      stepOk rec = true ∧ pyEq (recAction rec) "final" = false) :
    ∃ evs sid cu s' row,
      orchestrate hash w llmRaw ui ms sysi sid? uid pers s =
        Except.ok ("[MAX STEPS REACHED - No final answer provided]", evs, sid, cu, s') ∧
      s'.conversations = s.conversations ++ [row] ∧
      row.ai_response = "[MAX STEPS REACHED - No final answer provided]" ∧
      row.user_message = ui ∧
      evs.length = ms := by
  obtain ⟨⟨sid, s1⟩, hp⟩ := hsess
  have hconv1 : s1.conversations = s.conversations :=
    get_or_create_session_conversations hash sid? uid s (sid, s1) hp
  obtain ⟨cu, st, heq, hmem, hev⟩ :=
    orchestrate_eq_loop hash w llmRaw ui ms sysi sid? uid pers s sid s1 hp
  obtain ⟨evs, s', row, hloop, hconv, hair, hum, hlen⟩ :=
    orchLoop_sentinel w (fun i => run_agent_decode (llmRaw i)) ui sid uid pers cu ms 0 st
      (fun i hi => by simpa using hsteps i hi)
  refine ⟨evs, sid, cu, s', row, ?_, ?_, hair, hum, ?_⟩
  · rw [heq]
    exact hloop
  · rw [hconv, hmem, hconv1]
  · rw [hlen, hev]
    simp

/-- Witness for C2: two steps of the constant `nop`-action reply over
the empty store. -/
theorem orchestrate_max_steps_sentinel_witness :
    ∃ evs sid cu s' row,
      orchestrate exampleHash exampleWorld exRawNop "hi" 2 "" none none none emptyMem =
        Except.ok ("[MAX STEPS REACHED - No final answer provided]", evs, sid, cu, s') ∧
      s'.conversations = emptyMem.conversations ++ [row] ∧
      row.ai_response = "[MAX STEPS REACHED - No final answer provided]" ∧
      row.user_message = "hi" ∧
      evs.length = 2 :=
  orchestrate_max_steps_sentinel exampleHash exampleWorld exRawNop "hi" 2 "" none none none
    emptyMem ⟨_, rfl⟩ (fun _ _ => ⟨_, rfl, rfl, rfl⟩)
